import Mathlib

/-!
Verification development for the content-moderation analysis core of the
Yapplr repository (`sentiment-analysis/app.py`).

The Python module is shallowly embedded: floats become `ℚ`, dictionaries
become lists or structures, and regular-expression searches become
executable Boolean predicates on the list of characters of the (lowered)
text, each translated from the concrete regex it embeds.  The two
external capabilities (the VADER/TextBlob sentiment backend and spaCy's
sentence segmentation) are modelled as oracle fields of a `Config`
record: the code that consumes their outputs is embedded faithfully,
while the outputs themselves are environment inputs.
-/

namespace Yapplr

/-- Characters treated as whitespace by Python's `str.strip()` and by the
regex class `\s` (ASCII range, which covers every input considered here). -/
def pyIsSpace (c : Char) : Bool :=
  c == ' ' || c == '\t' || c == '\n' || c == '\r' || c == '\x0b' || c == '\x0c'

/-- Python `str.strip()` on a list of characters. -/
def stripChars (l : List Char) : List Char :=
  ((l.dropWhile pyIsSpace).reverse.dropWhile pyIsSpace).reverse

/-- Python `str.strip()` returning a string. -/
def pyStrip (s : String) : String :=
  String.mk (stripChars s.toList)

/-- Python `str.lower()` (ASCII), producing the character list that the
pattern rules scan. -/
def strLower (s : String) : List Char :=
  s.toList.map Char.toLower

/-- Python substring containment `sub in hay`. -/
def containsSub (hay sub : List Char) : Bool :=
  sub.isPrefixOf hay ||
    match hay with
    | [] => false
    | _ :: t => containsSub t sub

/-- All splits `(pre, suf)` of a list with `pre ++ suf = l`, in order of
increasing `pre`; used to quantify over regex match start positions. -/
def splitsL : List Char → List (List Char × List Char)
  | [] => [([], [])]
  | c :: cs => ([], c :: cs) :: (splitsL cs).map (fun p => (c :: p.1, p.2))

/-- A regex search succeeds if the position-wise matcher succeeds at some
split of the text (`re.search` semantics). -/
def searchB (m : List Char → List Char → Bool) (t : List Char) : Bool :=
  (splitsL t).any (fun p => m p.1 p.2)

/-- Membership in the regex class `\w` (ASCII). -/
def isWordChar (c : Char) : Bool :=
  c.isAlpha || c.isDigit || c == '_'

/-- Wordness of an optional adjacent character; the edge of the string
counts as a non-word character. -/
def owcO : Option Char → Bool
  | some c => isWordChar c
  | none => false

/-- The regex word-boundary `\b` holds between two adjacent (optional)
characters iff exactly one side is a word character. -/
def bdryB (l r : Option Char) : Bool :=
  owcO l != owcO r

/-- Character list of a string literal (shorthand for writing rules). -/
def cl (s : String) : List Char :=
  s.toList

/-- Matcher for one literal alternative `w` of a `\b(...)\b` rule at a
given position: `w` must begin the suffix with a word boundary on each
side. -/
def litAt (w pre suf : List Char) : Bool :=
  w.isPrefixOf suf && bdryB pre.getLast? w.head? &&
    bdryB w.getLast? ((suf.drop w.length).head?)

/-- Embedding of a rule of the form `\b(w1|w2|...)\b` where every
alternative is a literal. -/
def wordAlts (ws : List (List Char)) (t : List Char) : Bool :=
  searchB (fun pre suf => ws.any (fun w => litAt w pre suf)) t

/-- Matcher at a position for an alternative of the form `w1.*w2` inside
`\b(...)\b`: `w1` begins the suffix with a word boundary before it, and
`w2` occurs later (no newline in between, as `.` does not match one) with
a word boundary after it. -/
def gapAt (w1 w2 pre suf : List Char) : Bool :=
  w1.isPrefixOf suf && bdryB pre.getLast? w1.head? &&
    (splitsL (suf.drop w1.length)).any (fun q =>
      q.1.all (fun c => c != '\n') && w2.isPrefixOf q.2 &&
        bdryB w2.getLast? ((q.2.drop w2.length).head?))

/-- Rule `\b(covid.*fake|vaccine.*dangerous|election.*stolen)\b`
(Misinformation, second rule). -/
def misinfoRule2 (t : List Char) : Bool :=
  searchB (fun pre suf =>
    gapAt (cl "covid") (cl "fake") pre suf ||
    gapAt (cl "vaccine") (cl "dangerous") pre suf ||
    gapAt (cl "election") (cl "stolen") pre suf) t

/-- Rule `\b(viagra|casino|lottery|winner|congratulations.*won)\b`
(Spam, second rule). -/
def spamRule2 (t : List Char) : Bool :=
  searchB (fun pre suf =>
    [cl "viagra", cl "casino", cl "lottery", cl "winner"].any
      (fun w => litAt w pre suf) ||
    gapAt (cl "congratulations") (cl "won") pre suf) t

/-- Strips a leading `http[s]?://` (the URL head of the Spam link rule). -/
def stripHttp : List Char → Option (List Char)
  | 'h' :: 't' :: 't' :: 'p' :: rest =>
    match rest with
    | 's' :: ':' :: '/' :: '/' :: r => some r
    | ':' :: '/' :: '/' :: r => some r
    | _ => none
  | _ => none

/-- After a URL head, consume one or more non-whitespace characters
(`[^\s]+`, with backtracking) and then continue with `next`. -/
def urlTail (next : List Char → Bool) : List Char → Bool
  | [] => false
  | c :: cs => !pyIsSpace c && (next cs || urlTail next cs)

/-- Matches `k` consecutive repetitions of `http[s]?://[^\s]+` starting
exactly at the head of the list. -/
def urlGroups : Nat → List Char → Bool
  | 0, _ => true
  | k + 1, t =>
    match stripHttp t with
    | some r => urlTail (urlGroups k) r
    | none => false

/-- Rule `(http[s]?://[^\s]+){3,}` (Spam, third rule: three or more
consecutive links). -/
def spamRule3 (t : List Char) : Bool :=
  (splitsL t).any (fun p => urlGroups 3 p.2)

/-- Rule `(.)\1{10,}` (Spam, fourth rule: some non-newline character
repeated at least eleven times in a row). -/
def spamRule4 (t : List Char) : Bool :=
  (splitsL t).any (fun p =>
    match p.2 with
    | c :: rest =>
      c != '\n' && decide ((rest.take 10).length = 10) &&
        (rest.take 10).all (fun x => x == c)
    | [] => false)

/-- Rule `\b(season \d+|episode \d+|chapter \d+).*\b(reveals?|twist|surprise)\b`
(Spoiler, second rule).  `reveals?` is expanded into the two literals
`reveal` and `reveals`. -/
def spoilerRule2 (t : List Char) : Bool :=
  searchB (fun pre suf =>
    [cl "season ", cl "episode ", cl "chapter "].any (fun kw =>
      kw.isPrefixOf suf && bdryB pre.getLast? kw.head? &&
        (match suf.drop kw.length with
         | [] => false
         | d :: rest =>
           d.isDigit &&
             (splitsL rest).any (fun q =>
               q.1.all (fun c => c != '\n') &&
                 [cl "reveal", cl "reveals", cl "twist", cl "surprise"].any
                   (fun w =>
                     w.isPrefixOf q.2 &&
                       bdryB (some (q.1.getLastD d)) w.head? &&
                       bdryB w.getLast? ((q.2.drop w.length).head?))))))
    t

/-- Rule `^.{1,10}$` (Low Quality, first rule: the whole text — up to an
optional final newline, which `$` may precede — is one to ten
non-newline characters). -/
def lqShort (t : List Char) : Bool :=
  let u := if t.getLast? == some '\n' then t.dropLast else t
  decide (1 ≤ u.length) && decide (u.length ≤ 10) && u.all (fun c => c != '\n')

/-- Rule `^[^a-zA-Z]*$` (Low Quality, second rule: no ASCII letters at
all; the class also matches newlines, so this reduces to a letter-free
text). -/
def lqNoAlpha (t : List Char) : Bool :=
  t.all (fun c => !c.isAlpha)

/-- Rule `\b(first|second|third|fourth|fifth)\b$` (Low Quality, third
rule: the text ends — up to an optional final newline — in one of the
ordinal words, preceded by a word boundary). -/
def lqOrdinal (t : List Char) : Bool :=
  let check := fun (u : List Char) =>
    [cl "first", cl "second", cl "third", cl "fourth", cl "fifth"].any
      (fun w => (splitsL u).any (fun p => p.2 == w && bdryB p.1.getLast? w.head?))
  check t || (if t.getLast? == some '\n' then check t.dropLast else false)

/-- Position matcher for the phone rule `\b\d{3}-\d{3}-\d{4}\b`
(Doxxing, first rule). -/
def phoneAt (pre suf : List Char) : Bool :=
  match suf with
  | a :: b :: c :: h1 :: d :: e :: f :: h2 :: g :: h :: i :: j :: rest =>
    a.isDigit && b.isDigit && c.isDigit && h1 == '-' &&
    d.isDigit && e.isDigit && f.isDigit && h2 == '-' &&
    g.isDigit && h.isDigit && i.isDigit && j.isDigit &&
    !owcO pre.getLast? && !owcO rest.head?
  | _ => false

/-- Rule `\b\d{3}-\d{3}-\d{4}\b` (Doxxing: US phone numbers). -/
def phoneRule (t : List Char) : Bool :=
  searchB phoneAt t

/-- Class `[A-Za-z0-9._%+-]` of the email rule's local part. -/
def isLocalChar (c : Char) : Bool :=
  c.isAlpha || c.isDigit || c == '.' || c == '_' || c == '%' || c == '+' || c == '-'

/-- Class `[A-Za-z0-9.-]` of the email rule's domain part. -/
def isDomChar (c : Char) : Bool :=
  c.isAlpha || c.isDigit || c == '.' || c == '-'

/-- Class `[A-Z|a-z]` of the email rule's top-level-domain part (the
literal `|` inside the class is kept, faithful to the source). -/
def isTldChar (c : Char) : Bool :=
  c.isAlpha || c == '|'

/-- Position matcher for the email rule
`\b[A-Za-z0-9._%+-]+@[A-Za-z0-9.-]+\.[A-Z|a-z]{2,}\b`
(Doxxing, second rule). -/
def emailAt (pre suf : List Char) : Bool :=
  (splitsL suf).any (fun p =>
    match p.2 with
    | '@' :: rest2 =>
      !p.1.isEmpty && p.1.all isLocalChar && bdryB pre.getLast? p.1.head? &&
        (splitsL rest2).any (fun q =>
          match q.2 with
          | '.' :: rest4 =>
            !q.1.isEmpty && q.1.all isDomChar &&
              (splitsL rest4).any (fun r =>
                decide (2 ≤ r.1.length) && r.1.all isTldChar &&
                  (r.1 == rest4.take r.1.length) &&
                  bdryB r.1.getLast? ((rest4.drop r.1.length).head?))
          | _ => false)
    | _ => false)

/-- Rule `\b[A-Za-z0-9._%+-]+@[A-Za-z0-9.-]+\.[A-Z|a-z]{2,}\b`
(Doxxing: email addresses). -/
def emailRule (t : List Char) : Bool :=
  searchB emailAt t

/-- Rule
`\b\d{1,5}\s+\w+\s+(street|st|avenue|ave|road|rd|drive|dr|lane|ln|boulevard|blvd)\b`
(Doxxing, third rule: street addresses).  Because the classes `\d`, `\s`
and `\w` are pairwise disjoint, maximal munch of each run is equivalent
to the backtracking search. -/
def addrAt (pre suf : List Char) : Bool :=
  let ds := suf.takeWhile Char.isDigit
  let r1 := suf.dropWhile Char.isDigit
  let ws1 := r1.takeWhile pyIsSpace
  let r2 := r1.dropWhile pyIsSpace
  let wd := r2.takeWhile isWordChar
  let r3 := r2.dropWhile isWordChar
  let ws2 := r3.takeWhile pyIsSpace
  let r4 := r3.dropWhile pyIsSpace
  decide (1 ≤ ds.length) && decide (ds.length ≤ 5) && !owcO pre.getLast? &&
    decide (1 ≤ ws1.length) && decide (1 ≤ wd.length) && decide (1 ≤ ws2.length) &&
    ([cl "street", cl "st", cl "avenue", cl "ave", cl "road", cl "rd",
      cl "drive", cl "dr", cl "lane", cl "ln", cl "boulevard", cl "blvd"].any
      (fun w => w.isPrefixOf r4 && bdryB w.getLast? ((r4.drop w.length).head?)))

/-- Rule for street addresses (Doxxing, third rule). -/
def addrRule (t : List Char) : Bool :=
  searchB addrAt t

/-- NSFW rules (`SYSTEM_TAG_PATTERNS["ContentWarning"]["NSFW"]`). -/
def nsfwRules : List (List Char → Bool) :=
  [wordAlts [cl "nsfw", cl "not safe for work", cl "adult content",
     cl "explicit", cl "sexual", cl "nude", cl "naked", cl "porn", cl "xxx"],
   wordAlts [cl "18+", cl "mature content", cl "adult only"]]

/-- Violence rules (`SYSTEM_TAG_PATTERNS["ContentWarning"]["Violence"]`). -/
def violenceRules : List (List Char → Bool) :=
  [wordAlts [cl "violence", cl "violent", cl "kill", cl "murder", cl "death",
     cl "blood", cl "gore", cl "fight", cl "attack", cl "assault",
     cl "weapon", cl "gun", cl "knife", cl "bomb"],
   wordAlts [cl "war", cl "battle", cl "shooting", cl "stabbing",
     cl "beating", cl "torture"]]

/-- Sensitive rules (`SYSTEM_TAG_PATTERNS["ContentWarning"]["Sensitive"]`). -/
def sensitiveRules : List (List Char → Bool) :=
  [wordAlts [cl "trigger", cl "triggering", cl "sensitive", cl "depression",
     cl "anxiety", cl "suicide", cl "self harm", cl "mental health"],
   wordAlts [cl "trauma", cl "ptsd", cl "abuse", cl "eating disorder",
     cl "addiction"]]

/-- Spoiler rules (`SYSTEM_TAG_PATTERNS["ContentWarning"]["Spoiler"]`). -/
def spoilerRules : List (List Char → Bool) :=
  [wordAlts [cl "spoiler", cl "spoilers", cl "plot twist", cl "ending",
     cl "finale", cl "dies", cl "death scene"],
   spoilerRule2]

/-- Harassment rules (`SYSTEM_TAG_PATTERNS["Violation"]["Harassment"]`). -/
def harassmentRules : List (List Char → Bool) :=
  [wordAlts [cl "harass", cl "harassment", cl "bully", cl "bullying",
     cl "intimidate", cl "threaten", cl "stalk", cl "stalking"],
   wordAlts [cl "you suck", cl "kill yourself", cl "kys", cl "loser",
     cl "idiot", cl "stupid", cl "moron"]]

/-- Hate Speech rules (`SYSTEM_TAG_PATTERNS["Violation"]["Hate Speech"]`). -/
def hateSpeechRules : List (List Char → Bool) :=
  [wordAlts [cl "hate", cl "racist", cl "racism", cl "sexist", cl "sexism",
     cl "homophobic", cl "transphobic", cl "bigot", cl "nazi"],
   wordAlts [cl "slur", cl "offensive", cl "discriminat", cl "prejudice"]]

/-- Misinformation rules (`SYSTEM_TAG_PATTERNS["Violation"]["Misinformation"]`). -/
def misinformationRules : List (List Char → Bool) :=
  [wordAlts [cl "fake news", cl "conspiracy", cl "hoax", cl "lie", cl "lies",
     cl "false", cl "misinformation", cl "disinformation"],
   misinfoRule2]

/-- Spam rules (`SYSTEM_TAG_PATTERNS["Quality"]["Spam"]`). -/
def spamRules : List (List Char → Bool) :=
  [wordAlts [cl "buy now", cl "click here", cl "free money", cl "get rich",
     cl "make money fast", cl "limited time"],
   spamRule2, spamRule3, spamRule4]

/-- Low Quality rules (`SYSTEM_TAG_PATTERNS["Quality"]["Low Quality"]`). -/
def lowQualityRules : List (List Char → Bool) :=
  [lqShort, lqNoAlpha, lqOrdinal]

/-- Self Harm rules (`SYSTEM_TAG_PATTERNS["Safety"]["Self Harm"]`). -/
def selfHarmRules : List (List Char → Bool) :=
  [wordAlts [cl "suicide", cl "kill myself", cl "end it all", cl "self harm",
     cl "cut myself", cl "overdose", cl "jump off"],
   wordAlts [cl "want to die", cl "better off dead", cl "no point living",
     cl "end my life"]]

/-- Doxxing rules (`SYSTEM_TAG_PATTERNS["Safety"]["Doxxing"]`). -/
def doxxingRules : List (List Char → Bool) :=
  [phoneRule, emailRule, addrRule,
   wordAlts [cl "home address", cl "phone number", cl "social security",
     cl "ssn", cl "credit card"]]

/-- Tags of the `ContentWarning` category, in declaration order. -/
def contentWarningTags : List (String × List (List Char → Bool)) :=
  [("NSFW", nsfwRules), ("Violence", violenceRules),
   ("Sensitive", sensitiveRules), ("Spoiler", spoilerRules)]

/-- Tags of the `Violation` category, in declaration order. -/
def violationTags : List (String × List (List Char → Bool)) :=
  [("Harassment", harassmentRules), ("Hate Speech", hateSpeechRules),
   ("Misinformation", misinformationRules)]

/-- Tags of the `Quality` category, in declaration order. -/
def qualityTags : List (String × List (List Char → Bool)) :=
  [("Spam", spamRules), ("Low Quality", lowQualityRules)]

/-- Tags of the `Safety` category, in declaration order. -/
def safetyTags : List (String × List (List Char → Bool)) :=
  [("Self Harm", selfHarmRules), ("Doxxing", doxxingRules)]

/-- The taxonomy `SYSTEM_TAG_PATTERNS`: category → tag → ordered rules,
in declaration order. -/
def SYSTEM_TAG_PATTERNS : List (String × List (String × List (List Char → Bool))) :=
  [("ContentWarning", contentWarningTags), ("Violation", violationTags),
   ("Quality", qualityTags), ("Safety", safetyTags)]

/-- The inner rule loop of `analyze_content_patterns`: scan a tag's rules
in order and stop at the first match (`break`). -/
def firstMatch : List (List Char → Bool) → List Char → Bool
  | [], _ => false
  | r :: rs, t => if r t then true else firstMatch rs t

/-- Tags of one category that match the (lowered) text, in declaration
order; each tag is recorded at most once. -/
def matchedTags (t : List Char) (trs : List (String × List (List Char → Bool))) :
    List String :=
  trs.filterMap (fun tr => if firstMatch tr.2 t then some tr.1 else none)

/-- Embedding of `analyze_content_patterns`: lower-case the text once,
collect the matching tags per category, and keep only categories with at
least one match. -/
def analyze_content_patterns (text : String) : List (String × List String) :=
  let t := strLower text
  (SYSTEM_TAG_PATTERNS.map (fun c => (c.1, matchedTags t c.2))).filter
    (fun c => !c.2.isEmpty)

/-- Sentiment labels. -/
inductive SLabel
  | POSITIVE
  | NEGATIVE
  | NEUTRAL
  deriving DecidableEq, Repr

/-- A sentiment result: label, confidence (the Python dicts carry `score`
and `confidence` with the same value; one field suffices) and the
`source` identifier. -/
structure SentimentResult where
  label : SLabel
  confidence : ℚ
  source : String
  deriving DecidableEq, Repr

/-- The `positive_words` list of `analyze_sentiment_patterns`. -/
def positive_words : List String :=
  ["good", "great", "excellent", "amazing", "wonderful", "fantastic", "awesome",
   "love", "like", "enjoy", "happy", "pleased", "satisfied", "perfect", "best",
   "brilliant", "outstanding", "superb", "magnificent", "incredible", "beautiful"]

/-- The `negative_words` list of `analyze_sentiment_patterns`. -/
def negative_words : List String :=
  ["bad", "terrible", "awful", "horrible", "disgusting", "hate", "dislike",
   "angry", "frustrated", "disappointed", "worst", "pathetic", "useless",
   "stupid", "ridiculous", "annoying", "irritating", "boring", "ugly"]

/-- Embedding of `analyze_sentiment_patterns` (the lexicon fallback):
counts words of each list contained in the lowered text and classifies. -/
def analyze_sentiment_patterns (text : String) : SentimentResult :=
  let tl := strLower text
  let positive_count := positive_words.countP (fun w => containsSub tl w.toList)
  let negative_count := negative_words.countP (fun w => containsSub tl w.toList)
  if positive_count > negative_count then
    { label := .POSITIVE,
      confidence := min (3/5 + ((positive_count : ℚ) - (negative_count : ℚ)) * (1/10)) (9/10),
      source := "pattern_based" }
  else if negative_count > positive_count then
    { label := .NEGATIVE,
      confidence := min (3/5 + ((negative_count : ℚ) - (positive_count : ℚ)) * (1/10)) (9/10),
      source := "pattern_based" }
  else
    { label := .NEUTRAL, confidence := 1/2, source := "pattern_based" }

/-- Configuration of the service process, fixing which optional
capabilities loaded at startup and modelling the external ones as
oracles: `vaderCompound`/`textblobPolarity` give the two polarity
signals of the AI sentiment backend, and `segment` is spaCy's sentence
segmentation (`doc.sents`). -/
structure Config where
  sentimentModelsAvailable : Bool
  spacyAvailable : Bool
  vaderCompound : String → ℚ
  textblobPolarity : String → ℚ
  segment : String → List String

/-- Embedding of `analyze_sentiment_with_ai`: with the models available,
empty or whitespace-only text short-circuits, otherwise the two oracle
polarity signals are fused (`0.7*vader + 0.3*textblob`) and classified;
without the models the lexicon fallback runs.  The `except` fallback on
a backend exception is not modelled (the oracles are total). -/
def analyze_sentiment_with_ai (cfg : Config) (text : String) : SentimentResult :=
  if cfg.sentimentModelsAvailable then
    if stripChars text.toList = [] then
      { label := .NEUTRAL, confidence := 1/2, source := "empty_text" }
    else
      let clean_text := pyStrip text
      let vader_compound := cfg.vaderCompound clean_text
      let textblob_polarity := cfg.textblobPolarity clean_text
      let combined := vader_compound * (7/10) + textblob_polarity * (3/10)
      if combined ≥ 1/10 then
        { label := .POSITIVE, confidence := min (|combined| + 1/2) (19/20),
          source := "vader_textblob" }
      else if combined ≤ -(1/10) then
        { label := .NEGATIVE, confidence := min (|combined| + 1/2) (19/20),
          source := "vader_textblob" }
      else
        { label := .NEUTRAL, confidence := 1/2 + (3/10) * (1 - |combined|),
          source := "vader_textblob" }
  else
    analyze_sentiment_patterns text

/-- The four monitored intent categories. -/
inductive ICat
  | violence
  | harassment
  | hate
  | threat
  deriving DecidableEq, Repr

/-- The `problematic_terms` lists of `analyze_intent_with_context`. -/
def problematic_terms : ICat → List (List Char)
  | .violence => [cl "kill", cl "murder", cl "attack", cl "violence",
      cl "hurt", cl "harm", cl "beat", cl "fight"]
  | .harassment => [cl "harass", cl "bully", cl "stalk", cl "intimidate",
      cl "threaten"]
  | .hate => [cl "hate", cl "despise", cl "loathe", cl "detest"]
  | .threat => [cl "will kill", cl "going to hurt", cl "watch out",
      cl "you\x27re dead"]

/-- The `negation_words` list. -/
def negation_words : List String :=
  ["not", "never", "don\x27t", "won\x27t", "wouldn\x27t", "can\x27t",
   "cannot", "no"]

/-- Negation cue detection: plain substring containment of some cue in
the lowered sentence. -/
def hasNegationB (sentLower : List Char) : Bool :=
  negation_words.any (fun w => containsSub sentLower w.toList)

/-- The context value of an intent flag: initially empty, afterwards the
last matched sentence recorded as negated (`f"Negated: '...'"`) or
asserted (`f"Asserted: '...'"`); the tag and stripped sentence are kept
structurally. -/
inductive ContextTag
  | empty
  | negated (sent : String)
  | asserted (sent : String)
  deriving DecidableEq, Repr

/-- One per-category intent flag. -/
structure IntentFlag where
  detected : Bool
  confidence : ℚ
  context : ContextTag
  deriving DecidableEq, Repr

/-- The initial flag `{"detected": False, "confidence": 0.0, "context": ""}`. -/
def initFlag : IntentFlag :=
  { detected := false, confidence := 0, context := .empty }

/-- The four intent flags. -/
structure IntentFlags where
  violence : IntentFlag
  harassment : IntentFlag
  hate : IntentFlag
  threat : IntentFlag
  deriving DecidableEq, Repr

/-- Flag lookup by category. -/
def IntentFlags.get (fl : IntentFlags) : ICat → IntentFlag
  | .violence => fl.violence
  | .harassment => fl.harassment
  | .hate => fl.hate
  | .threat => fl.threat

/-- The initial `intent_flags` dictionary. -/
def initFlags : IntentFlags :=
  { violence := initFlag, harassment := initFlag,
    hate := initFlag, threat := initFlag }

/-- The body of the innermost loop of `analyze_intent_with_context`: on
a term occurrence, negated sentences lower the confidence by 0.3 floored
at 0 without setting `detected`, asserted sentences raise it by 0.7
capped at 1.0 and set `detected`. -/
def updateTermMatch (sent : String) (sentLower : List Char) (hasNeg : Bool)
    (flag : IntentFlag) (term : List Char) : IntentFlag :=
  if containsSub sentLower term then
    if hasNeg then
      { flag with confidence := max 0 (flag.confidence - 3/10),
                  context := .negated (pyStrip sent) }
    else
      { detected := true, confidence := min 1 (flag.confidence + 7/10),
        context := .asserted (pyStrip sent) }
  else
    flag

/-- Process one sentence for one category: fold the category's terms over
the flag, with the sentence's negation status computed once. -/
def processSentCat (sent : String) (terms : List (List Char))
    (flag : IntentFlag) : IntentFlag :=
  let sl := strLower sent
  terms.foldl (updateTermMatch sent sl (hasNegationB sl)) flag

/-- Process one sentence for all four categories (the categories touch
disjoint flags, so the dict loop is a simultaneous update). -/
def processSentence (fl : IntentFlags) (sent : String) : IntentFlags :=
  { violence := processSentCat sent (problematic_terms .violence) fl.violence,
    harassment := processSentCat sent (problematic_terms .harassment) fl.harassment,
    hate := processSentCat sent (problematic_terms .hate) fl.hate,
    threat := processSentCat sent (problematic_terms .threat) fl.threat }

/-- The sentence loop of `analyze_intent_with_context` over a segmented
sentence list. -/
def intentFlagsRun (sents : List String) : IntentFlags :=
  sents.foldl processSentence initFlags

/-- Result of intent analysis.  When `available = false` the Python dict
carries no other keys; the remaining fields then hold the values the
callers obtain through `.get(..., default)`. -/
structure IntentResult where
  available : Bool
  overallRisk : String
  confidence : ℚ
  detectedIntents : List ICat
  flags : IntentFlags
  deriving DecidableEq, Repr

/-- Embedding of `analyze_intent_with_context`: unavailable without
spaCy; otherwise fold the segmented sentences and summarise (`max` over
the flag confidences in dict order, detected categories in dict order). -/
def analyze_intent_with_context (cfg : Config) (text : String) : IntentResult :=
  if cfg.spacyAvailable then
    let fl := (cfg.segment text).foldl processSentence initFlags
    let max_confidence :=
      max (max (max fl.violence.confidence fl.harassment.confidence)
        fl.hate.confidence) fl.threat.confidence
    { available := true,
      overallRisk :=
        if max_confidence > 3/5 then "HIGH"
        else if max_confidence > 3/10 then "MEDIUM" else "LOW",
      confidence := max_confidence,
      detectedIntents :=
        [ICat.violence, .harassment, .hate, .threat].filter
          (fun c => (IntentFlags.get fl c).detected),
      flags := fl }
  else
    { available := false, overallRisk := "", confidence := 0,
      detectedIntents := [], flags := initFlags }

/-- The `risk_weights` table of `get_content_risk_score`. -/
def risk_weights : List (String × ℚ) :=
  [("ContentWarning", 1/5), ("Violation", 4/5), ("Quality", 2/5), ("Safety", 1)]

/-- Per-category pattern contribution: `len(tags) * weight * 0.1`,
skipping categories absent from the weight table. -/
def patternContribution (pm : List (String × List String)) : ℚ :=
  pm.foldl (fun acc c =>
    match risk_weights.lookup c.1 with
    | some w => acc + (c.2.length : ℚ) * w * (1/10)
    | none => acc) 0

/-- Embedding of `get_content_risk_score`: sentiment contribution
(NEGATIVE adds `confidence*0.4`, POSITIVE subtracts `confidence*0.1`)
plus pattern contributions, capped above at 1.0 (there is no floor), and
the legacy level thresholds `HIGH ≥ 0.8`, `MEDIUM ≥ 0.5`, `LOW ≥ 0.2`. -/
def get_content_risk_score (sr : SentimentResult)
    (pm : List (String × List String)) : ℚ × String :=
  let base :=
    (if sr.label = .NEGATIVE then sr.confidence * (2/5)
     else if sr.label = .POSITIVE then -(sr.confidence * (1/10)) else 0)
    + patternContribution pm
  let risk_score := min base 1
  (risk_score,
   if risk_score ≥ 4/5 then "HIGH"
   else if risk_score ≥ 1/2 then "MEDIUM"
   else if risk_score ≥ 1/5 then "LOW" else "MINIMAL")

/-- Python `round(q, 4)` over the rationals (ties differ: Python floats
round half to even, `round` here rounds half up; no value in this
development sits on a tie). -/
def round4 (q : ℚ) : ℚ :=
  (round (q * 10000) : ℤ) / 10000

/-- The sentiment result `moderate_content` works with: the real
analysis when `include_sentiment` holds, otherwise the fixed neutral
placeholder dict (whose missing `source` key reads as `"unknown"`). -/
def moderationSentiment (cfg : Config) (text : String)
    (include_sentiment : Bool) : SentimentResult :=
  if include_sentiment then analyze_sentiment_with_ai cfg text
  else { label := .NEUTRAL, confidence := 1/2, source := "unknown" }

/-- The intent-override block of `moderate_content` (lines 452-467): from
the pattern-and-sentiment risk score and the intent result, produce the
final risk score and the review decision. -/
def aggregate (risk_score : ℚ) (ia : IntentResult) : ℚ × Bool :=
  let requires_review := decide (risk_score ≥ 1/2)
  if ia.available then
    if ia.confidence > 3/10 then (max risk_score ia.confidence, true)
    else if ia.confidence = 0 ∧ ia.detectedIntents = [] then
      (min risk_score (3/10), requires_review)
    else (risk_score, requires_review)
  else (risk_score, requires_review)

/-- The risk-assessment object of a `/moderate` response. -/
structure RiskAssessment where
  score : ℚ
  level : String
  patternScore : ℚ
  intentScore : Option ℚ
  deriving DecidableEq, Repr

/-- The canonical level thresholds of `/moderate` (line 474):
`HIGH ≥ 0.7`, `MEDIUM ≥ 0.4`, `LOW ≥ 0.2`, else `MINIMAL`. -/
def canonicalLevelStr (q : ℚ) : String :=
  if q ≥ 7/10 then "HIGH"
  else if q ≥ 2/5 then "MEDIUM"
  else if q ≥ 1/5 then "LOW" else "MINIMAL"

/-- The sentiment object attached to responses. -/
structure SentimentOut where
  label : SLabel
  confidence : ℚ
  source : String
  deriving DecidableEq, Repr

/-- A `/moderate` response (the analysis core of `moderate_content`,
after the HTTP-layer validation of a non-empty `text`). -/
structure ModerationResult where
  suggestedTags : List (String × List String)
  intentAnalysis : IntentResult
  riskAssessment : RiskAssessment
  requiresReview : Bool
  sentiment : Option SentimentOut
  deriving Repr

/-- Embedding of `moderate_content`: run the three analyses, fuse them
through `get_content_risk_score` and `aggregate`, and assemble the
response (scores rounded to four decimals; the level is computed from
the unrounded final score with the canonical thresholds). -/
def moderate_content (cfg : Config) (text : String)
    (include_sentiment : Bool) : ModerationResult :=
  let pattern_matches := analyze_content_patterns text
  let intent_analysis := analyze_intent_with_context cfg text
  let sentiment_result := moderationSentiment cfg text include_sentiment
  let rs := get_content_risk_score sentiment_result pattern_matches
  let fr := aggregate rs.1 intent_analysis
  { suggestedTags := pattern_matches,
    intentAnalysis := intent_analysis,
    riskAssessment :=
      { score := round4 fr.1,
        level := canonicalLevelStr fr.1,
        patternScore := round4 rs.1,
        intentScore :=
          if intent_analysis.available then some (round4 intent_analysis.confidence)
          else none },
    requiresReview := fr.2,
    sentiment :=
      if include_sentiment then
        some { label := sentiment_result.label,
               confidence := round4 sentiment_result.confidence,
               source := sentiment_result.source }
      else none }

/-- One element of a `/batch-moderate` response. -/
structure BatchResult where
  text : String
  suggestedTags : List (String × List String)
  score : ℚ
  level : String
  requiresReview : Bool
  sentiment : Option SentimentOut
  deriving Repr

/-- Embedding of the per-text body of `batch_moderate_content`: empty or
whitespace-only texts get the fixed minimal result; otherwise patterns
and sentiment are fused by `get_content_risk_score` (no intent analysis
here), the level comes from its legacy thresholds, and review is forced
by a `Violation` or `Safety` category. -/
def batchElement (cfg : Config) (include_sentiment : Bool)
    (text : String) : BatchResult :=
  if stripChars text.toList = [] then
    { text := text, suggestedTags := [], score := 0, level := "MINIMAL",
      requiresReview := false,
      sentiment :=
        if include_sentiment then
          let empty_sentiment := analyze_sentiment_with_ai cfg ""
          some { label := empty_sentiment.label,
                 confidence := round4 empty_sentiment.confidence,
                 source := empty_sentiment.source }
        else none }
  else
    let pattern_matches := analyze_content_patterns text
    let sentiment_result := moderationSentiment cfg text include_sentiment
    let rs := get_content_risk_score sentiment_result pattern_matches
    { text := text, suggestedTags := pattern_matches,
      score := round4 rs.1, level := rs.2,
      requiresReview :=
        decide (rs.1 ≥ 1/2) ||
          pattern_matches.any (fun c => c.1 == "Violation" || c.1 == "Safety"),
      sentiment :=
        if include_sentiment then
          some { label := sentiment_result.label,
                 confidence := round4 sentiment_result.confidence,
                 source := sentiment_result.source }
        else none }

/-- Embedding of `batch_moderate_content`: one result per text, in
order. -/
def batch_moderate_content (cfg : Config) (include_sentiment : Bool)
    (texts : List String) : List BatchResult :=
  texts.map (batchElement cfg include_sentiment)

/-- Spec-side restatement of the lexicon provider, following the spec's
own words (counts by case-insensitive substring containment of each list
word, `min(0.6 + 0.1*(posCount-negCount), 0.9)` and the symmetric
negative formula, NEUTRAL confidence 0.5 on a tie); to be compared with
`analyze_sentiment_patterns`, which is translated from the source. -/
def lexiconSentimentSpec (text : String) : SentimentResult :=
  let posCount := positive_words.countP (fun w => containsSub (strLower text) (strLower w))
  let negCount := negative_words.countP (fun w => containsSub (strLower text) (strLower w))
  if posCount > negCount then
    { label := .POSITIVE,
      confidence := min (3/5 + (1/10) * ((posCount : ℚ) - (negCount : ℚ))) (9/10),
      source := "pattern_based" }
  else if negCount > posCount then
    { label := .NEGATIVE,
      confidence := min (3/5 + (1/10) * ((negCount : ℚ) - (posCount : ℚ))) (9/10),
      source := "pattern_based" }
  else
    { label := .NEUTRAL, confidence := 1/2, source := "pattern_based" }

/-- A process configuration in which neither optional backend loaded:
the lexicon fallback serves sentiment and intent analysis is
unavailable (the oracles are then never consulted). -/
def cfgL : Config :=
  { sentimentModelsAvailable := false, spacyAvailable := false,
    vaderCompound := fun _ => 0, textblobPolarity := fun _ => 0,
    segment := fun t => [t] }

/-- A process configuration with spaCy available and the sentiment
models absent; segmentation returns the whole text as a single sentence,
matching spaCy on one-sentence inputs. -/
def cfgI : Config :=
  { sentimentModelsAvailable := false, spacyAvailable := true,
    vaderCompound := fun _ => 0, textblobPolarity := fun _ => 0,
    segment := fun t => [t] }

/-- Well-formedness of one intent flag: its confidence lies in [0,1]. -/
def flagWF (f : IntentFlag) : Prop :=
  0 ≤ f.confidence ∧ f.confidence ≤ 1

/-- Well-formedness of the four intent flags. -/
def flagsWF (fl : IntentFlags) : Prop :=
  flagWF fl.violence ∧ flagWF fl.harassment ∧ flagWF fl.hate ∧ flagWF fl.threat

/-- Spec-side statement of the intent-override policy (claim C2's
formula): `finalScore = max(patternScore, intentScore)` when
`intentScore > 0.3`, `min(patternScore, 0.3)` when `intentScore == 0`
with no detected categories, and `patternScore` otherwise; to be
compared with the `aggregate` step translated from the source. -/
def specIntentPolicy (patternScore intentScore : ℚ) (detected : List ICat) : ℚ :=
  if intentScore > 3/10 then max patternScore intentScore
  else if intentScore = 0 ∧ detected = [] then min patternScore (3/10)
  else patternScore

/-! ### Rounding lemmas -/

theorem round4_mono {a b : ℚ} (h : a ≤ b) : round4 a ≤ round4 b := by
  unfold round4
  have h1 : round (a * 10000) ≤ round (b * 10000) := by
    rw [round_eq, round_eq]
    exact Int.floor_le_floor (by linarith)
  have h2 : ((round (a * 10000) : ℤ) : ℚ) ≤ ((round (b * 10000) : ℤ) : ℚ) := by
    exact_mod_cast h1
  linarith

theorem round4_intDiv (n : ℤ) : round4 ((n : ℚ) / 10000) = (n : ℚ) / 10000 := by
  unfold round4
  rw [div_mul_cancel₀ _ (by norm_num : (10000 : ℚ) ≠ 0), round_intCast]

theorem round4_fix {q : ℚ} (n : ℤ) (h : q = (n : ℚ) / 10000) : round4 q = q := by
  rw [h, round4_intDiv]

theorem round4_le_one {q : ℚ} (h : q ≤ 1) : round4 q ≤ 1 := by
  have h1 : round4 q ≤ round4 1 := round4_mono h
  have h2 : round4 1 = 1 := round4_fix 10000 (by norm_num)
  linarith

theorem round4_lb {q : ℚ} (h : -(1/10) ≤ q) : -(1/10) ≤ round4 q := by
  have h1 : round4 (-(1/10)) ≤ round4 q := round4_mono h
  have h2 : round4 (-(1/10)) = -(1/10) := round4_fix (-1000) (by norm_num)
  linarith

/-! ### Bounds on the component scores -/

theorem conf_formula_bounds (p n : ℕ) (h : n < p) :
    0 ≤ min (3/5 + ((p : ℚ) - (n : ℚ)) * (1/10)) (9/10) ∧
      min (3/5 + ((p : ℚ) - (n : ℚ)) * (1/10)) (9/10) ≤ 1 := by
  have hd : (n : ℚ) ≤ (p : ℚ) := by exact_mod_cast h.le
  have hm : 0 ≤ ((p : ℚ) - (n : ℚ)) * (1/10) := mul_nonneg (by linarith) (by norm_num)
  exact ⟨le_min (by linarith) (by norm_num),
    le_trans (min_le_right _ _) (by norm_num)⟩

theorem patterns_conf_bounds (t : String) :
    0 ≤ (analyze_sentiment_patterns t).confidence ∧
      (analyze_sentiment_patterns t).confidence ≤ 1 := by
  simp only [analyze_sentiment_patterns]
  split_ifs with h1 h2
  · exact conf_formula_bounds _ _ h1
  · exact conf_formula_bounds _ _ h2
  · exact ⟨by norm_num, by norm_num⟩

theorem ai_conf_bounds (cfg : Config) (t : String) :
    0 ≤ (analyze_sentiment_with_ai cfg t).confidence ∧
      (analyze_sentiment_with_ai cfg t).confidence ≤ 1 := by
  simp only [analyze_sentiment_with_ai]
  split_ifs with h1 h2 h3 h4
  · exact ⟨by norm_num, by norm_num⟩
  · exact ⟨le_min (by positivity) (by norm_num),
      le_trans (min_le_right _ _) (by norm_num)⟩
  · exact ⟨le_min (by positivity) (by norm_num),
      le_trans (min_le_right _ _) (by norm_num)⟩
  · have habs : |cfg.vaderCompound (pyStrip t) * (7/10) +
        cfg.textblobPolarity (pyStrip t) * (3/10)| < 1/10 := by
      rw [abs_lt]
      constructor <;> linarith [not_le.mp h3, not_le.mp h4]
    have h0 := abs_nonneg (cfg.vaderCompound (pyStrip t) * (7/10) +
      cfg.textblobPolarity (pyStrip t) * (3/10))
    refine ⟨?_, ?_⟩ <;> dsimp only <;> linarith
  · exact patterns_conf_bounds t

theorem moderationSentiment_conf_bounds (cfg : Config) (t : String) (b : Bool) :
    0 ≤ (moderationSentiment cfg t b).confidence ∧
      (moderationSentiment cfg t b).confidence ≤ 1 := by
  unfold moderationSentiment
  split_ifs
  · exact ai_conf_bounds cfg t
  · norm_num

theorem risk_weights_lookup_nonneg (c : String) (w : ℚ)
    (h : risk_weights.lookup c = some w) : 0 ≤ w := by
  simp only [risk_weights, List.lookup] at h
  repeat' split at h
  all_goals simp_all
  all_goals norm_num [← h]

theorem patternContribution_step_le (acc : ℚ) (c : String × List String) :
    acc ≤ (match risk_weights.lookup c.1 with
      | some w => acc + (c.2.length : ℚ) * w * (1/10)
      | none => acc) := by
  cases h : risk_weights.lookup c.1 with
  | none => simp
  | some w =>
    have hw := risk_weights_lookup_nonneg c.1 w h
    have hnn : 0 ≤ (c.2.length : ℚ) * w * (1/10) := by
      apply mul_nonneg (mul_nonneg (by positivity) hw)
      norm_num
    simp only
    exact le_add_of_nonneg_right hnn

theorem patternContribution_foldl_le (pm : List (String × List String)) :
    ∀ acc : ℚ, acc ≤ pm.foldl (fun acc c =>
      match risk_weights.lookup c.1 with
      | some w => acc + (c.2.length : ℚ) * w * (1/10)
      | none => acc) acc := by
  induction pm with
  | nil => intro acc; simp
  | cons c pm ih =>
    intro acc
    calc acc ≤ _ := patternContribution_step_le acc c
    _ ≤ _ := ih _

theorem patternContribution_nonneg (pm : List (String × List String)) :
    0 ≤ patternContribution pm :=
  patternContribution_foldl_le pm 0

theorem risk_score_bounds (sr : SentimentResult) (pm : List (String × List String))
    (h0 : 0 ≤ sr.confidence) (h1 : sr.confidence ≤ 1) :
    -(1/10) ≤ (get_content_risk_score sr pm).1 ∧
      (get_content_risk_score sr pm).1 ≤ 1 := by
  unfold get_content_risk_score
  simp only
  have hp := patternContribution_nonneg pm
  refine ⟨le_min ?_ (by norm_num), min_le_right _ _⟩
  split_ifs
  · nlinarith
  · nlinarith
  · linarith

theorem updateTermMatch_wf {flag : IntentFlag} (s : String) (sl : List Char)
    (neg : Bool) (term : List Char) (h : flagWF flag) :
    flagWF (updateTermMatch s sl neg flag term) := by
  obtain ⟨h0, h1⟩ := h
  unfold updateTermMatch
  split_ifs
  · exact ⟨le_max_left _ _, max_le (by norm_num) (by linarith)⟩
  · exact ⟨le_min (by norm_num) (by linarith), min_le_left _ _⟩
  · exact ⟨h0, h1⟩

theorem foldl_update_wf (s : String) (sl : List Char) (neg : Bool)
    (terms : List (List Char)) :
    ∀ flag : IntentFlag, flagWF flag →
      flagWF (terms.foldl (updateTermMatch s sl neg) flag) := by
  induction terms with
  | nil => intro flag h; exact h
  | cons t ts ih =>
    intro flag h
    exact ih _ (updateTermMatch_wf s sl neg t h)

theorem processSentCat_wf (s : String) (terms : List (List Char))
    {flag : IntentFlag} (h : flagWF flag) :
    flagWF (processSentCat s terms flag) :=
  foldl_update_wf s (strLower s) (hasNegationB (strLower s)) terms flag h

theorem processSentence_wf {fl : IntentFlags} (s : String) (h : flagsWF fl) :
    flagsWF (processSentence fl s) :=
  ⟨processSentCat_wf s _ h.1, processSentCat_wf s _ h.2.1,
   processSentCat_wf s _ h.2.2.1, processSentCat_wf s _ h.2.2.2⟩

theorem initFlags_wf : flagsWF initFlags := by
  refine ⟨⟨?_, ?_⟩, ⟨?_, ?_⟩, ⟨?_, ?_⟩, ⟨?_, ?_⟩⟩ <;> norm_num [initFlags, initFlag]

theorem intentFoldl_wf (sents : List String) :
    ∀ fl : IntentFlags, flagsWF fl → flagsWF (sents.foldl processSentence fl) := by
  induction sents with
  | nil => intro fl h; exact h
  | cons s ss ih => intro fl h; exact ih _ (processSentence_wf s h)

theorem intent_conf_bounds (cfg : Config) (t : String) :
    0 ≤ (analyze_intent_with_context cfg t).confidence ∧
      (analyze_intent_with_context cfg t).confidence ≤ 1 := by
  unfold analyze_intent_with_context
  split_ifs
  · have hwf := intentFoldl_wf (cfg.segment t) initFlags initFlags_wf
    obtain ⟨⟨a0, a1⟩, ⟨b0, b1⟩, ⟨c0, c1⟩, ⟨d0, d1⟩⟩ := hwf
    constructor
    · dsimp only
      exact le_trans a0 (le_trans (le_max_left _ _)
        (le_trans (le_max_left _ _) (le_max_left _ _)))
    · dsimp only
      exact max_le (max_le (max_le a1 b1) c1) d1
  · exact ⟨le_refl 0, by norm_num⟩

theorem aggregate_bounds (rs : ℚ) (ia : IntentResult)
    (h0 : -(1/10) ≤ rs) (h1 : rs ≤ 1)
    (_h2 : 0 ≤ ia.confidence) (h3 : ia.confidence ≤ 1) :
    -(1/10) ≤ (aggregate rs ia).1 ∧ (aggregate rs ia).1 ≤ 1 := by
  unfold aggregate
  split_ifs <;> dsimp only
  · exact ⟨le_trans h0 (le_max_left _ _), max_le h1 h3⟩
  · exact ⟨le_min h0 (by norm_num), le_trans (min_le_left _ _) h1⟩
  · exact ⟨h0, h1⟩
  · exact ⟨h0, h1⟩

/-! ### Unfolding equations for the response assembly -/

theorem moderate_score_def (cfg : Config) (text : String) (incS : Bool) :
    (moderate_content cfg text incS).riskAssessment.score =
      round4 (aggregate (get_content_risk_score (moderationSentiment cfg text incS)
        (analyze_content_patterns text)).1 (analyze_intent_with_context cfg text)).1 :=
  rfl

theorem moderate_level_def (cfg : Config) (text : String) (incS : Bool) :
    (moderate_content cfg text incS).riskAssessment.level =
      canonicalLevelStr (aggregate (get_content_risk_score
        (moderationSentiment cfg text incS)
        (analyze_content_patterns text)).1 (analyze_intent_with_context cfg text)).1 :=
  rfl

theorem moderate_review_def (cfg : Config) (text : String) (incS : Bool) :
    (moderate_content cfg text incS).requiresReview =
      (aggregate (get_content_risk_score (moderationSentiment cfg text incS)
        (analyze_content_patterns text)).1 (analyze_intent_with_context cfg text)).2 :=
  rfl

theorem moderate_tags_def (cfg : Config) (text : String) (incS : Bool) :
    (moderate_content cfg text incS).suggestedTags = analyze_content_patterns text :=
  rfl

theorem moderationSentiment_true (cfg : Config) (t : String) :
    moderationSentiment cfg t true = analyze_sentiment_with_ai cfg t :=
  rfl

theorem intent_available_eq (cfg : Config) (t : String) :
    (analyze_intent_with_context cfg t).available = cfg.spacyAvailable := by
  unfold analyze_intent_with_context
  split_ifs with h
  · simp [h]
  · simp [Bool.not_eq_true] at h
    simp [h]

theorem ai_sentiment_cfgI (t : String) :
    analyze_sentiment_with_ai cfgI t = analyze_sentiment_patterns t :=
  rfl

theorem ai_sentiment_cfgL (t : String) :
    analyze_sentiment_with_ai cfgL t = analyze_sentiment_patterns t :=
  rfl

theorem intent_cfgL (t : String) :
    analyze_intent_with_context cfgL t =
      { available := false, overallRisk := "", confidence := 0,
        detectedIntents := [], flags := initFlags } :=
  rfl

theorem aggregate_unavailable_fst (x : ℚ) :
    (aggregate x
      ({ available := false, overallRisk := "", confidence := 0,
         detectedIntents := [], flags := initFlags } : IntentResult)).1 = x :=
  rfl

theorem aggregate_unavailable_snd (x : ℚ) :
    (aggregate x
      ({ available := false, overallRisk := "", confidence := 0,
         detectedIntents := [], flags := initFlags } : IntentResult)).2 = decide (x ≥ 1/2) :=
  rfl

/-- C1.  Amended claim: every risk-assessment score produced by
`moderate_content` or by an element of `batch_moderate_content` lies in
`[-0.1, 1]`.  The original interval `[0, 1]` fails: only the upper bound
is clamped (`min(base_score, 1.0)`), and a POSITIVE sentiment subtracts
`confidence * 0.1`, so the score dips below zero when the pattern
contributions are smaller than that reduction (see the counterexample). -/
theorem moderationScoreBounds :
    (∀ cfg text incS, -(1/10) ≤ (moderate_content cfg text incS).riskAssessment.score ∧
      (moderate_content cfg text incS).riskAssessment.score ≤ 1) ∧
    (∀ cfg incS texts, ∀ r ∈ batch_moderate_content cfg incS texts,
      -(1/10) ≤ r.score ∧ r.score ≤ 1) := by
  constructor
  · intro cfg text incS
    obtain ⟨hs0, hs1⟩ := moderationSentiment_conf_bounds cfg text incS
    obtain ⟨hr0, hr1⟩ := risk_score_bounds (moderationSentiment cfg text incS)
      (analyze_content_patterns text) hs0 hs1
    obtain ⟨hi0, hi1⟩ := intent_conf_bounds cfg text
    obtain ⟨ha0, ha1⟩ := aggregate_bounds _ (analyze_intent_with_context cfg text)
      hr0 hr1 hi0 hi1
    exact ⟨round4_lb ha0, round4_le_one ha1⟩
  · intro cfg incS texts r hr
    obtain ⟨t, _, rfl⟩ := List.mem_map.mp hr
    unfold batchElement
    by_cases he : stripChars t.toList = []
    · rw [if_pos he]
      exact ⟨by norm_num, by norm_num⟩
    · rw [if_neg he]
      dsimp only
      obtain ⟨hs0, hs1⟩ := moderationSentiment_conf_bounds cfg t incS
      obtain ⟨hr0, hr1⟩ := risk_score_bounds (moderationSentiment cfg t incS)
        (analyze_content_patterns t) hs0 hs1
      exact ⟨round4_lb hr0, round4_le_one hr1⟩

/-- C1 witness: the bounds instantiated at a concrete configuration, a
concrete text, and the concrete first element of a batch. -/
theorem moderationScoreBounds_witness :
    (batchElement cfgL false "") ∈ batch_moderate_content cfgL false [""] ∧
      (-(1/10) ≤ (moderate_content cfgL "ok then" true).riskAssessment.score ∧
        (moderate_content cfgL "ok then" true).riskAssessment.score ≤ 1) ∧
      (-(1/10) ≤ (batchElement cfgL false "").score ∧
        (batchElement cfgL false "").score ≤ 1) :=
  ⟨List.mem_singleton.mpr rfl,
   moderationScoreBounds.1 cfgL "ok then" true,
   moderationScoreBounds.2 cfgL false [""] _ (List.mem_singleton.mpr rfl)⟩

/-- C1 counterexample: on the text `"good morning everyone"` (lexicon
sentiment POSITIVE with confidence 0.7, no pattern matches, intent
analysis unavailable) the `/moderate` risk score is `-0.07`, outside
`[0, 1]`. -/
theorem negativeScoreCounterexample :
    (moderate_content cfgL "good morning everyone" true).riskAssessment.score
      = -(7/100) ∧ (-(7/100) : ℚ) < 0 := by
  have hpm : analyze_content_patterns "good morning everyone" = [] := by decide
  have hp : positive_words.countP
      (fun w => containsSub (strLower "good morning everyone") w.toList) = 1 := by
    decide
  have hn : negative_words.countP
      (fun w => containsSub (strLower "good morning everyone") w.toList) = 0 := by
    decide
  have hs : analyze_sentiment_patterns "good morning everyone" =
      { label := .POSITIVE, confidence := 7/10, source := "pattern_based" } := by
    simp only [analyze_sentiment_patterns, hp, hn]
    norm_num
  have hne : (SLabel.POSITIVE = SLabel.NEGATIVE) = False := eq_false (by decide)
  have hpo : (SLabel.POSITIVE = SLabel.POSITIVE) = True := eq_true rfl
  have hrisk : (get_content_risk_score
      { label := .POSITIVE, confidence := 7/10, source := "pattern_based" } []).1
      = -(7/100) := by
    simp only [get_content_risk_score, patternContribution, List.foldl_nil,
      hne, hpo, if_false, if_true]
    norm_num
  refine ⟨?_, by norm_num⟩
  rw [moderate_score_def, moderationSentiment_true, ai_sentiment_cfgL, hs, hpm,
    hrisk, intent_cfgL, aggregate_unavailable_fst]
  exact round4_fix (-700) (by norm_num)

/-! ### Intent runs without term matches -/

theorem updateTermMatch_noMatch (s : String) (sl : List Char) (neg : Bool)
    (flag : IntentFlag) (term : List Char) (h : containsSub sl term = false) :
    updateTermMatch s sl neg flag term = flag := by
  unfold updateTermMatch
  simp [h]

theorem foldl_update_noMatch (s : String) (sl : List Char) (neg : Bool)
    (terms : List (List Char)) (flag : IntentFlag)
    (h : ∀ t ∈ terms, containsSub sl t = false) :
    terms.foldl (updateTermMatch s sl neg) flag = flag := by
  induction terms generalizing flag with
  | nil => rfl
  | cons t ts ih =>
    rw [List.foldl_cons, updateTermMatch_noMatch s sl neg flag t (h t (by simp))]
    exact ih flag (fun u hu => h u (by simp [hu]))

theorem processSentCat_noMatch (s : String) (terms : List (List Char))
    (flag : IntentFlag) (h : ∀ t ∈ terms, containsSub (strLower s) t = false) :
    processSentCat s terms flag = flag :=
  foldl_update_noMatch s (strLower s) (hasNegationB (strLower s)) terms flag h

theorem processSentence_noMatch (fl : IntentFlags) (s : String)
    (h : ∀ c : ICat, ∀ t ∈ problematic_terms c, containsSub (strLower s) t = false) :
    processSentence fl s = fl := by
  unfold processSentence
  rw [processSentCat_noMatch s _ _ (h .violence),
    processSentCat_noMatch s _ _ (h .harassment),
    processSentCat_noMatch s _ _ (h .hate),
    processSentCat_noMatch s _ _ (h .threat)]

theorem intent_nothing (cfg : Config) (t : String)
    (hs : cfg.spacyAvailable = true) (hseg : cfg.segment t = [t])
    (h : ∀ c : ICat, ∀ term ∈ problematic_terms c, containsSub (strLower t) term = false) :
    analyze_intent_with_context cfg t =
      { available := true, overallRisk := "LOW", confidence := 0,
        detectedIntents := [], flags := initFlags } := by
  unfold analyze_intent_with_context
  rw [if_pos hs, hseg]
  simp only [List.foldl_cons, List.foldl_nil, processSentence_noMatch initFlags t h]
  norm_num [initFlags, initFlag, IntentFlags.get, List.filter, max_self]

/-- C2: when intent analysis is available, the final score follows
exactly the claimed policy (`max` override above 0.3, `min(·, 0.3)` cap
when intent found nothing, otherwise the pattern score), and the
override branch forces `requiresReview`. -/
theorem intentOverridePolicy (cfg : Config) (text : String) (incS : Bool)
    (h : cfg.spacyAvailable = true) :
    (moderate_content cfg text incS).riskAssessment.score =
      round4 (specIntentPolicy
        (get_content_risk_score (moderationSentiment cfg text incS)
          (analyze_content_patterns text)).1
        (analyze_intent_with_context cfg text).confidence
        (analyze_intent_with_context cfg text).detectedIntents) ∧
    ((analyze_intent_with_context cfg text).confidence > 3/10 →
      (moderate_content cfg text incS).requiresReview = true) := by
  have ha : (analyze_intent_with_context cfg text).available = true := by
    rw [intent_available_eq, h]
  constructor
  · rw [moderate_score_def]
    unfold aggregate specIntentPolicy
    rw [if_pos ha]
    split_ifs <;> rfl
  · intro hc
    rw [moderate_review_def]
    unfold aggregate
    rw [if_pos ha, if_pos hc]

/-- C2 witness: the policy instantiated at a concrete configuration with
spaCy available and a concrete text. -/
theorem intentOverridePolicy_witness :
    cfgI.spacyAvailable = true ∧
    ((moderate_content cfgI "hello there" true).riskAssessment.score =
      round4 (specIntentPolicy
        (get_content_risk_score (moderationSentiment cfgI "hello there" true)
          (analyze_content_patterns "hello there")).1
        (analyze_intent_with_context cfgI "hello there").confidence
        (analyze_intent_with_context cfgI "hello there").detectedIntents) ∧
    ((analyze_intent_with_context cfgI "hello there").confidence > 3/10 →
      (moderate_content cfgI "hello there" true).requiresReview = true)) :=
  ⟨rfl, intentOverridePolicy cfgI "hello there" true rfl⟩

/-- C3.  Amended claim: when intent analysis is available,
`requiresReview` is true iff the PATTERN score is at least 0.5 or the
intent override (`intentScore > 0.3`) fired.  The original claim - with
the FINAL score in that disjunction - fails: the `min(patternScore, 0.3)`
cap branch lowers the final score but leaves `requires_review` as
computed from the pattern score (see the counterexample). -/
theorem reviewPolicyIntentAvailable (cfg : Config) (text : String) (incS : Bool)
    (h : cfg.spacyAvailable = true) :
    (moderate_content cfg text incS).requiresReview = true ↔
      ((get_content_risk_score (moderationSentiment cfg text incS)
          (analyze_content_patterns text)).1 ≥ 1/2 ∨
        (analyze_intent_with_context cfg text).confidence > 3/10) := by
  have ha : (analyze_intent_with_context cfg text).available = true := by
    rw [intent_available_eq, h]
  rw [moderate_review_def]
  unfold aggregate
  rw [if_pos ha]
  split_ifs with h1 h2
  · simp [h1]
  · simp [decide_eq_true_eq, h1]
  · simp [decide_eq_true_eq, h1]

/-- C3 witness: the review characterisation at a concrete configuration
and text. -/
theorem reviewPolicyIntentAvailable_witness :
    cfgI.spacyAvailable = true ∧
    ((moderate_content cfgI "hello friend" true).requiresReview = true ↔
      ((get_content_risk_score (moderationSentiment cfgI "hello friend" true)
          (analyze_content_patterns "hello friend")).1 ≥ 1/2 ∨
        (analyze_intent_with_context cfgI "hello friend").confidence > 3/10)) :=
  ⟨rfl, reviewPolicyIntentAvailable cfgI "hello friend" true rfl⟩

/-- C3 counterexample: on
`"bad terrible awful horrible lies 555-123-4567"` with intent analysis
available (confidence 0, nothing detected) the pattern score is 0.54, so
the cap branch sets the final score to 0.3 < 0.5, no override fired, and
yet `requiresReview` is true — refuting the claimed equivalence with the
final score. -/
theorem cappedScoreStillReviewed :
    (moderate_content cfgI "bad terrible awful horrible lies 555-123-4567"
        true).requiresReview = true ∧
    (moderate_content cfgI "bad terrible awful horrible lies 555-123-4567"
        true).riskAssessment.score = 3/10 ∧
    ¬((3/10 : ℚ) ≥ 1/2) ∧
    (analyze_intent_with_context cfgI
      "bad terrible awful horrible lies 555-123-4567").confidence = 0 := by
  have hpm : analyze_content_patterns "bad terrible awful horrible lies 555-123-4567" =
      [("Violation", ["Misinformation"]), ("Safety", ["Doxxing"])] := by decide
  have hp : positive_words.countP (fun w => containsSub
      (strLower "bad terrible awful horrible lies 555-123-4567") w.toList) = 0 := by
    decide
  have hn : negative_words.countP (fun w => containsSub
      (strLower "bad terrible awful horrible lies 555-123-4567") w.toList) = 4 := by
    decide
  have hs : analyze_sentiment_patterns "bad terrible awful horrible lies 555-123-4567" =
      { label := .NEGATIVE, confidence := 9/10, source := "pattern_based" } := by
    simp only [analyze_sentiment_patterns, hp, hn]
    norm_num
  have hlv : risk_weights.lookup "Violation" = some (4/5) := rfl
  have hls : risk_weights.lookup "Safety" = some 1 := rfl
  have hneg : (SLabel.NEGATIVE = SLabel.NEGATIVE) = True := eq_true rfl
  have hrisk : (get_content_risk_score
      { label := .NEGATIVE, confidence := 9/10, source := "pattern_based" }
      [("Violation", ["Misinformation"]), ("Safety", ["Doxxing"])]).1 = 27/50 := by
    simp only [get_content_risk_score, patternContribution, List.foldl_cons,
      List.foldl_nil, hlv, hls, hneg, if_true]
    norm_num
  have hint : analyze_intent_with_context cfgI
      "bad terrible awful horrible lies 555-123-4567" =
      { available := true, overallRisk := "LOW", confidence := 0,
        detectedIntents := [], flags := initFlags } :=
    intent_nothing cfgI _ rfl rfl (by intro c; cases c <;> decide)
  refine ⟨?_, ?_, by norm_num, by rw [hint]⟩
  · rw [moderate_review_def, moderationSentiment_true, ai_sentiment_cfgI, hs,
      hpm, hrisk, hint]
    norm_num [aggregate, decide_eq_true_eq]
  · rw [moderate_score_def, moderationSentiment_true, ai_sentiment_cfgI, hs,
      hpm, hrisk, hint]
    have hmin : (aggregate (27/50)
        ({ available := true, overallRisk := "LOW", confidence := 0,
           detectedIntents := [], flags := initFlags } : IntentResult)).1 = 3/10 := by
      norm_num [aggregate]
    rw [hmin]
    exact round4_fix 3000 (by norm_num)

/-- Pattern result of the phone+email scenario text (shared evaluation). -/
theorem pm_phone_email :
    analyze_content_patterns "Call me at 555-123-4567 or email me at test@example.com" =
      [("Safety", ["Doxxing"])] := by decide

/-- Sentiment of the phone+email scenario text under the lexicon
provider (no list word occurs). -/
theorem sent_phone_email :
    analyze_sentiment_patterns "Call me at 555-123-4567 or email me at test@example.com" =
      { label := .NEUTRAL, confidence := 1/2, source := "pattern_based" } := by
  have hp : positive_words.countP (fun w => containsSub
      (strLower "Call me at 555-123-4567 or email me at test@example.com") w.toList)
      = 0 := by decide
  have hn : negative_words.countP (fun w => containsSub
      (strLower "Call me at 555-123-4567 or email me at test@example.com") w.toList)
      = 0 := by decide
  simp only [analyze_sentiment_patterns, hp, hn]
  norm_num

/-- Risk score of the phone+email scenario: one Safety tag, neutral
sentiment. -/
theorem risk_phone_email :
    (get_content_risk_score
      { label := .NEUTRAL, confidence := 1/2, source := "pattern_based" }
      [("Safety", ["Doxxing"])]).1 = 1/10 := by
  have hls : risk_weights.lookup "Safety" = some 1 := rfl
  have h1 : (SLabel.NEUTRAL = SLabel.NEGATIVE) = False := eq_false (by decide)
  have h2 : (SLabel.NEUTRAL = SLabel.POSITIVE) = False := eq_false (by decide)
  simp only [get_content_risk_score, patternContribution, List.foldl_cons,
    List.foldl_nil, hls, h1, h2, if_false]
  norm_num

/-- C4.  Amended claim: when intent analysis is unavailable,
`moderate_content` returns `finalScore = patternScore` and
`requiresReview = (patternScore ≥ 0.5)` with NO category disjunct; the
`Violation`/`Safety` disjunct exists only in `batch_moderate_content`,
whose element for the phone+email text is flagged for review through its
Safety/Doxxing tag.  The original claim attributed the batch review rule
to `moderate` (see the counterexample). -/
theorem reviewPolicyIntentUnavailable :
    (∀ cfg text incS, cfg.spacyAvailable = false →
      (moderate_content cfg text incS).riskAssessment.score =
        round4 (get_content_risk_score (moderationSentiment cfg text incS)
          (analyze_content_patterns text)).1 ∧
      ((moderate_content cfg text incS).requiresReview = true ↔
        (get_content_risk_score (moderationSentiment cfg text incS)
          (analyze_content_patterns text)).1 ≥ 1/2)) ∧
    (∀ cfg incS text, stripChars text.toList ≠ [] →
      ((batchElement cfg incS text).requiresReview = true ↔
        ((get_content_risk_score (moderationSentiment cfg text incS)
            (analyze_content_patterns text)).1 ≥ 1/2 ∨
          ∃ p ∈ analyze_content_patterns text, p.1 = "Violation" ∨ p.1 = "Safety"))) ∧
    (batchElement cfgL true
      "Call me at 555-123-4567 or email me at test@example.com").requiresReview
      = true := by
  refine ⟨?_, ?_, ?_⟩
  · intro cfg text incS h
    have ha : (analyze_intent_with_context cfg text).available = false := by
      rw [intent_available_eq]; exact h
    constructor
    · rw [moderate_score_def]
      unfold aggregate
      simp only [ha, Bool.false_eq_true, if_false]
    · rw [moderate_review_def]
      unfold aggregate
      simp only [ha, Bool.false_eq_true, if_false]
      simp [decide_eq_true_eq]
  · intro cfg incS text h
    unfold batchElement
    rw [if_neg h]
    dsimp only
    simp [decide_eq_true_eq, List.any_eq_true]
  · unfold batchElement
    rw [if_neg (by decide)]
    dsimp only
    rw [pm_phone_email]
    simp

/-- C4 witness: the moderate review rule applied at a concrete
configuration without spaCy and a concrete text. -/
theorem reviewPolicyIntentUnavailable_witness :
    cfgL.spacyAvailable = false ∧
    ((moderate_content cfgL "ok then" true).requiresReview = true ↔
      (get_content_risk_score (moderationSentiment cfgL "ok then" true)
        (analyze_content_patterns "ok then")).1 ≥ 1/2) :=
  ⟨rfl, (reviewPolicyIntentUnavailable.1 cfgL "ok then" true rfl).2⟩

/-- C4 counterexample: `/moderate` on the phone+email text (intent
analysis unavailable) reports the Safety/Doxxing tag yet
`requiresReview = false`, because `moderate_content` has no
Violation/Safety disjunct and the pattern score 0.1 is below 0.5. -/
theorem moderateSafetyNoReview :
    (moderate_content cfgL
      "Call me at 555-123-4567 or email me at test@example.com" true).requiresReview
      = false ∧
    ("Safety", ["Doxxing"]) ∈ (moderate_content cfgL
      "Call me at 555-123-4567 or email me at test@example.com" true).suggestedTags := by
  constructor
  · rw [moderate_review_def, moderationSentiment_true, ai_sentiment_cfgL,
      sent_phone_email, pm_phone_email, risk_phone_email, intent_cfgL,
      aggregate_unavailable_snd]
    exact decide_eq_false (by norm_num)
  · rw [moderate_tags_def, pm_phone_email]
    exact List.mem_singleton_self _

/-- C5.  Amended claim: `moderate_content` derives the level from the
unrounded final score with the canonical thresholds (HIGH ≥ 0.7,
MEDIUM ≥ 0.4, LOW ≥ 0.2, else MINIMAL), but each element of
`batch_moderate_content` takes its level from `get_content_risk_score`,
which uses the legacy thresholds (HIGH ≥ 0.8, MEDIUM ≥ 0.5, LOW ≥ 0.2);
empty-text batch elements are fixed at MINIMAL.  The original claim
asserted the canonical thresholds for batch elements as well (see the
counterexample). -/
theorem levelThresholds :
    (∀ cfg text incS,
      (moderate_content cfg text incS).riskAssessment.level =
        (if (aggregate (get_content_risk_score (moderationSentiment cfg text incS)
              (analyze_content_patterns text)).1
              (analyze_intent_with_context cfg text)).1 ≥ 7/10 then "HIGH"
         else if (aggregate (get_content_risk_score (moderationSentiment cfg text incS)
              (analyze_content_patterns text)).1
              (analyze_intent_with_context cfg text)).1 ≥ 2/5 then "MEDIUM"
         else if (aggregate (get_content_risk_score (moderationSentiment cfg text incS)
              (analyze_content_patterns text)).1
              (analyze_intent_with_context cfg text)).1 ≥ 1/5 then "LOW"
         else "MINIMAL")) ∧
    (∀ cfg incS text, stripChars text.toList ≠ [] →
      (batchElement cfg incS text).level =
        (if (get_content_risk_score (moderationSentiment cfg text incS)
              (analyze_content_patterns text)).1 ≥ 4/5 then "HIGH"
         else if (get_content_risk_score (moderationSentiment cfg text incS)
              (analyze_content_patterns text)).1 ≥ 1/2 then "MEDIUM"
         else if (get_content_risk_score (moderationSentiment cfg text incS)
              (analyze_content_patterns text)).1 ≥ 1/5 then "LOW"
         else "MINIMAL")) ∧
    (∀ cfg incS text, stripChars text.toList = [] →
      (batchElement cfg incS text).level = "MINIMAL") := by
  refine ⟨?_, ?_, ?_⟩
  · intro cfg text incS
    rw [moderate_level_def]
    rfl
  · intro cfg incS text h
    unfold batchElement
    rw [if_neg h]
    rfl
  · intro cfg incS text h
    unfold batchElement
    rw [if_pos h]

/-- C5 witness: the batch level rules applied at concrete texts (one
non-empty, one whitespace-only). -/
theorem levelThresholds_witness :
    stripChars "hi there".toList ≠ [] ∧
    ((batchElement cfgL true "hi there").level =
      (if (get_content_risk_score (moderationSentiment cfgL "hi there" true)
            (analyze_content_patterns "hi there")).1 ≥ 4/5 then "HIGH"
       else if (get_content_risk_score (moderationSentiment cfgL "hi there" true)
            (analyze_content_patterns "hi there")).1 ≥ 1/2 then "MEDIUM"
       else if (get_content_risk_score (moderationSentiment cfgL "hi there" true)
            (analyze_content_patterns "hi there")).1 ≥ 1/5 then "LOW"
       else "MINIMAL")) ∧
    stripChars " ".toList = [] ∧ (batchElement cfgL true " ").level = "MINIMAL" :=
  ⟨by decide, levelThresholds.2.1 cfgL true "hi there" (by decide),
   by decide, levelThresholds.2.2 cfgL true " " (by decide)⟩

/-- C5 counterexample: the batch element for
`"bad terrible awful horrible buy now"` has score exactly 0.4 — which
the canonical policy maps to MEDIUM — yet its level is the legacy LOW. -/
theorem batchLegacyLevel :
    (batchElement cfgL true "bad terrible awful horrible buy now").score = 2/5 ∧
    (batchElement cfgL true "bad terrible awful horrible buy now").level = "LOW" ∧
    ((2/5 : ℚ) ≥ 2/5) ∧ ¬((2/5 : ℚ) ≥ 7/10) ∧ ("LOW" : String) ≠ "MEDIUM" := by
  have hpm : analyze_content_patterns "bad terrible awful horrible buy now" =
      [("Quality", ["Spam"])] := by decide
  have hp : positive_words.countP (fun w => containsSub
      (strLower "bad terrible awful horrible buy now") w.toList) = 0 := by decide
  have hn : negative_words.countP (fun w => containsSub
      (strLower "bad terrible awful horrible buy now") w.toList) = 4 := by decide
  have hs : analyze_sentiment_patterns "bad terrible awful horrible buy now" =
      { label := .NEGATIVE, confidence := 9/10, source := "pattern_based" } := by
    simp only [analyze_sentiment_patterns, hp, hn]
    norm_num
  have hlq : risk_weights.lookup "Quality" = some (2/5) := rfl
  have hneg : (SLabel.NEGATIVE = SLabel.NEGATIVE) = True := eq_true rfl
  have hrisk : get_content_risk_score
      { label := .NEGATIVE, confidence := 9/10, source := "pattern_based" }
      [("Quality", ["Spam"])] = (2/5, "LOW") := by
    simp only [get_content_risk_score, patternContribution, List.foldl_cons,
      List.foldl_nil, hlq, hneg, if_true]
    norm_num
  refine ⟨?_, ?_, by norm_num, by norm_num, by decide⟩
  · unfold batchElement
    rw [if_neg (by decide)]
    dsimp only
    rw [moderationSentiment_true, ai_sentiment_cfgL, hs, hpm, hrisk]
    exact round4_fix 4000 (by norm_num)
  · unfold batchElement
    rw [if_neg (by decide)]
    dsimp only
    rw [moderationSentiment_true, ai_sentiment_cfgL, hs, hpm, hrisk]

/-! ### Per-sentence intent behaviour -/

theorem processSentence_get (fl : IntentFlags) (s : String) (c : ICat) :
    (processSentence fl s).get c = processSentCat s (problematic_terms c) (fl.get c) := by
  cases c <;> rfl

theorem initFlags_get (c : ICat) : initFlags.get c = initFlag := by
  cases c <;> rfl

theorem intentFlagsRun_single (s : String) :
    intentFlagsRun [s] = processSentence initFlags s :=
  rfl

theorem updateTermMatch_neg_eq (s : String) (sl : List Char) (flag : IntentFlag)
    (term : List Char) (h : containsSub sl term = true) :
    updateTermMatch s sl true flag term =
      ⟨flag.detected, max 0 (flag.confidence - 3/10), .negated (pyStrip s)⟩ := by
  unfold updateTermMatch
  simp [h]

theorem updateTermMatch_pos_eq (s : String) (sl : List Char) (flag : IntentFlag)
    (term : List Char) (h : containsSub sl term = true) :
    updateTermMatch s sl false flag term =
      ⟨true, min 1 (flag.confidence + 7/10), .asserted (pyStrip s)⟩ := by
  unfold updateTermMatch
  simp [h]

theorem foldl_update_neg_facts (s : String) (sl : List Char)
    (terms : List (List Char)) (flag : IntentFlag) (h0 : 0 ≤ flag.confidence) :
    (terms.foldl (updateTermMatch s sl true) flag).detected = flag.detected ∧
    (terms.foldl (updateTermMatch s sl true) flag).confidence ≤ flag.confidence ∧
    0 ≤ (terms.foldl (updateTermMatch s sl true) flag).confidence ∧
    ((∃ t ∈ terms, containsSub sl t = true) →
      (terms.foldl (updateTermMatch s sl true) flag).context = .negated (pyStrip s)) := by
  induction terms generalizing flag with
  | nil =>
    refine ⟨rfl, le_refl _, h0, ?_⟩
    rintro ⟨t, ht, _⟩
    cases ht
  | cons t ts ih =>
    rw [List.foldl_cons]
    by_cases hm : containsSub sl t = true
    · rw [updateTermMatch_neg_eq s sl flag t hm]
      have hstep0 : (0 : ℚ) ≤ max 0 (flag.confidence - 3/10) := le_max_left _ _
      obtain ⟨ihd, ihc, ihn, ihctx⟩ :=
        ih ⟨flag.detected, max 0 (flag.confidence - 3/10), .negated (pyStrip s)⟩ hstep0
      refine ⟨ihd, le_trans ihc (max_le h0 (by linarith)), ihn, ?_⟩
      intro _
      by_cases hts : ∃ u ∈ ts, containsSub sl u = true
      · exact ihctx hts
      · have hnone : ∀ u ∈ ts, containsSub sl u = false := by
          intro u hu
          cases h : containsSub sl u
          · rfl
          · exact absurd ⟨u, hu, h⟩ hts
        rw [foldl_update_noMatch s sl true ts
          ⟨flag.detected, max 0 (flag.confidence - 3/10), .negated (pyStrip s)⟩ hnone]
    · have hm' : containsSub sl t = false := Bool.eq_false_iff.mpr hm
      rw [updateTermMatch_noMatch s sl true flag t hm']
      obtain ⟨ihd, ihc, ihn, ihctx⟩ := ih flag h0
      refine ⟨ihd, ihc, ihn, ?_⟩
      rintro ⟨u, hu, hcu⟩
      rcases List.mem_cons.mp hu with rfl | hu'
      · exact absurd hcu (by simp [hm'])
      · exact ihctx ⟨u, hu', hcu⟩

theorem foldl_update_pos_keep (s : String) (sl : List Char)
    (terms : List (List Char)) (flag : IntentFlag)
    (hd : flag.detected = true) (hc : 7/10 ≤ flag.confidence)
    (hctx : flag.context = .asserted (pyStrip s)) :
    (terms.foldl (updateTermMatch s sl false) flag).detected = true ∧
    7/10 ≤ (terms.foldl (updateTermMatch s sl false) flag).confidence ∧
    (terms.foldl (updateTermMatch s sl false) flag).context = .asserted (pyStrip s) := by
  induction terms generalizing flag with
  | nil => exact ⟨hd, hc, hctx⟩
  | cons t ts ih =>
    rw [List.foldl_cons]
    by_cases hm : containsSub sl t = true
    · rw [updateTermMatch_pos_eq s sl flag t hm]
      exact ih _ rfl (le_min (by norm_num) (by linarith)) rfl
    · have hm' : containsSub sl t = false := Bool.eq_false_iff.mpr hm
      rw [updateTermMatch_noMatch s sl false flag t hm']
      exact ih flag hd hc hctx

theorem foldl_update_pos_facts (s : String) (sl : List Char)
    (terms : List (List Char)) (flag : IntentFlag) (h0 : 0 ≤ flag.confidence)
    (hm : ∃ t ∈ terms, containsSub sl t = true) :
    (terms.foldl (updateTermMatch s sl false) flag).detected = true ∧
    7/10 ≤ (terms.foldl (updateTermMatch s sl false) flag).confidence ∧
    (terms.foldl (updateTermMatch s sl false) flag).context = .asserted (pyStrip s) := by
  induction terms generalizing flag with
  | nil =>
    obtain ⟨t, ht, _⟩ := hm
    cases ht
  | cons t ts ih =>
    rw [List.foldl_cons]
    by_cases hmt : containsSub sl t = true
    · rw [updateTermMatch_pos_eq s sl flag t hmt]
      exact foldl_update_pos_keep s sl ts _ rfl
        (le_min (by norm_num) (by linarith)) rfl
    · have hm' : containsSub sl t = false := Bool.eq_false_iff.mpr hmt
      rw [updateTermMatch_noMatch s sl false flag t hm']
      obtain ⟨u, hu, hcu⟩ := hm
      rcases List.mem_cons.mp hu with rfl | hu'
      · exact absurd hcu (by simp [hm'])
      · exact ih flag h0 ⟨u, hu', hcu⟩

/-- C6: on a single-sentence text, a trigger-term occurrence under a
negation cue leaves `detected = false` with confidence floored at 0 and
records a negated context, while the same trigger without a cue sets
`detected = true`, raises the confidence to at least 0.7 (by +0.7 capped
at 1.0) and records an asserted context; the negated sentence therefore
ends with strictly lower confidence than the asserted one.  The two
update equations state the exact per-term adjustments (−0.3 floored at
0; +0.7 capped at 1.0 with `detected` set). -/
theorem negationFlipsDetection (cat : ICat) (t1 t2 : List Char) (s1 s2 : String)
    (h1 : t1 ∈ problematic_terms cat) (h2 : containsSub (strLower s1) t1 = true)
    (h3 : hasNegationB (strLower s1) = true)
    (h4 : t2 ∈ problematic_terms cat) (h5 : containsSub (strLower s2) t2 = true)
    (h6 : hasNegationB (strLower s2) = false) :
    (∀ flag : IntentFlag, updateTermMatch s1 (strLower s1) true flag t1 =
      ⟨flag.detected, max 0 (flag.confidence - 3/10), .negated (pyStrip s1)⟩) ∧
    (∀ flag : IntentFlag, updateTermMatch s2 (strLower s2) false flag t2 =
      ⟨true, min 1 (flag.confidence + 7/10), .asserted (pyStrip s2)⟩) ∧
    ((intentFlagsRun [s1]).get cat).detected = false ∧
    ((intentFlagsRun [s1]).get cat).confidence = 0 ∧
    ((intentFlagsRun [s1]).get cat).context = .negated (pyStrip s1) ∧
    ((intentFlagsRun [s2]).get cat).detected = true ∧
    7/10 ≤ ((intentFlagsRun [s2]).get cat).confidence ∧
    ((intentFlagsRun [s2]).get cat).context = .asserted (pyStrip s2) ∧
    ((intentFlagsRun [s1]).get cat).confidence <
      ((intentFlagsRun [s2]).get cat).confidence := by
  have e1 : (intentFlagsRun [s1]).get cat =
      (problematic_terms cat).foldl
        (updateTermMatch s1 (strLower s1) true) initFlag := by
    rw [intentFlagsRun_single, processSentence_get, initFlags_get]
    simp only [processSentCat]
    rw [h3]
  have e2 : (intentFlagsRun [s2]).get cat =
      (problematic_terms cat).foldl
        (updateTermMatch s2 (strLower s2) false) initFlag := by
    rw [intentFlagsRun_single, processSentence_get, initFlags_get]
    simp only [processSentCat]
    rw [h6]
  obtain ⟨n1, n2, n3, n4⟩ := foldl_update_neg_facts s1 (strLower s1)
    (problematic_terms cat) initFlag (le_refl 0)
  obtain ⟨p1, p2, p3⟩ := foldl_update_pos_facts s2 (strLower s2)
    (problematic_terms cat) initFlag (le_refl 0) ⟨t2, h4, h5⟩
  have hzero : ((intentFlagsRun [s1]).get cat).confidence = 0 := by
    rw [e1]
    exact le_antisymm n2 n3
  refine ⟨fun flag => updateTermMatch_neg_eq s1 (strLower s1) flag t1 h2,
    fun flag => updateTermMatch_pos_eq s2 (strLower s2) flag t2 h5,
    ?_, hzero, ?_, ?_, ?_, ?_, ?_⟩
  · rw [e1]; exact n1
  · rw [e1]; exact n4 ⟨t1, h1, h2⟩
  · rw [e2]; exact p1
  · rw [e2]; exact p2
  · rw [e2]; exact p3
  · rw [hzero, e2]; linarith

/-- C6 witness: the violence trigger `fight` in `"i will not fight"`
(negated) versus `"i will fight"` (asserted). -/
theorem negationFlipsDetection_witness :
    (cl "fight") ∈ problematic_terms ICat.violence ∧
    containsSub (strLower "i will not fight") (cl "fight") = true ∧
    hasNegationB (strLower "i will not fight") = true ∧
    containsSub (strLower "i will fight") (cl "fight") = true ∧
    hasNegationB (strLower "i will fight") = false ∧
    ((intentFlagsRun ["i will not fight"]).get ICat.violence).detected = false ∧
    ((intentFlagsRun ["i will not fight"]).get ICat.violence).confidence = 0 ∧
    ((intentFlagsRun ["i will fight"]).get ICat.violence).detected = true ∧
    7/10 ≤ ((intentFlagsRun ["i will fight"]).get ICat.violence).confidence ∧
    ((intentFlagsRun ["i will not fight"]).get ICat.violence).confidence <
      ((intentFlagsRun ["i will fight"]).get ICat.violence).confidence := by
  have h := negationFlipsDetection ICat.violence (cl "fight") (cl "fight")
    "i will not fight" "i will fight" (by decide) (by decide) (by decide)
    (by decide) (by decide) (by decide)
  exact ⟨by decide, by decide, by decide, by decide, by decide,
    h.2.2.1, h.2.2.2.1, h.2.2.2.2.2.1, h.2.2.2.2.2.2.1, h.2.2.2.2.2.2.2.2⟩

/-- C10: negation cues are detected by plain substring containment, so a
sentence whose only cue occurrence is a fragment of another word (such
as `no` inside `know`) is still treated as negated: processing it never
changes any category's `detected` flag and never increases its
confidence. -/
theorem fragmentNegationSuppresses (sent : String) (fl : IntentFlags) (cat : ICat)
    (h0 : 0 ≤ (fl.get cat).confidence)
    (h : hasNegationB (strLower sent) = true) :
    ((processSentence fl sent).get cat).detected = (fl.get cat).detected ∧
    ((processSentence fl sent).get cat).confidence ≤ (fl.get cat).confidence := by
  rw [processSentence_get]
  simp only [processSentCat]
  rw [h]
  obtain ⟨hd, hc, _, _⟩ := foldl_update_neg_facts sent (strLower sent)
    (problematic_terms cat) (fl.get cat) h0
  exact ⟨hd, hc⟩

/-- C10 witness: in `"i know they fight"` the only negation-cue
occurrence is `no` inside `know`, yet the sentence counts as negated and
the violence trigger `fight` does not set detection. -/
theorem fragmentNegationSuppresses_witness :
    (0 : ℚ) ≤ (initFlags.get ICat.violence).confidence ∧
    hasNegationB (strLower "i know they fight") = true ∧
    containsSub (strLower "i know they fight") (cl "fight") = true ∧
    ((processSentence initFlags "i know they fight").get ICat.violence).detected
      = (initFlags.get ICat.violence).detected ∧
    ((processSentence initFlags "i know they fight").get ICat.violence).confidence
      ≤ (initFlags.get ICat.violence).confidence := by
  have h := fragmentNegationSuppresses "i know they fight" initFlags ICat.violence
    (le_refl 0) (by decide)
  exact ⟨le_refl 0, by decide, by decide, h.1, h.2⟩

/-! ### Whitespace-only texts and the lexicon provider -/

theorem strip_nil_all_space {l : List Char} (h : stripChars l = []) :
    ∀ c ∈ l, pyIsSpace c = true := by
  unfold stripChars at h
  rw [List.reverse_eq_nil_iff, List.dropWhile_eq_nil_iff] at h
  have h2 : ∀ c ∈ l.dropWhile pyIsSpace, pyIsSpace c = true := by
    intro c hc
    exact h c (List.mem_reverse.mpr hc)
  intro c hc
  rw [← List.takeWhile_append_dropWhile (p := pyIsSpace) (l := l)] at hc
  rcases List.mem_append.mp hc with hc | hc
  · exact List.mem_takeWhile_imp hc
  · exact h2 c hc

theorem toLower_space {c : Char} (h : pyIsSpace c = true) :
    pyIsSpace c.toLower = true := by
  simp only [pyIsSpace, Bool.or_eq_true, beq_iff_eq] at h
  rcases h with ((((h | h) | h) | h) | h) | h <;> subst h <;> decide

theorem contains_false_of_space (l : List Char) (hsp : ∀ c ∈ l, pyIsSpace c = true)
    (c0 : Char) (cs : List Char) (h0 : pyIsSpace c0 = false) :
    containsSub l (c0 :: cs) = false := by
  induction l with
  | nil => rfl
  | cons x xs ih =>
    have hx : pyIsSpace x = true := hsp x (by simp)
    have hne : (c0 == x) = false := by
      cases he : (c0 == x)
      · rfl
      · rw [beq_iff_eq] at he
        subst he
        rw [hx] at h0
        simp at h0
    unfold containsSub
    simp only [List.isPrefixOf, hne, Bool.false_and, Bool.false_or]
    exact ih (fun c hc => hsp c (by simp [hc]))

theorem lexicon_whitespace (text : String) (h : stripChars text.toList = []) :
    analyze_sentiment_patterns text =
      { label := .NEUTRAL, confidence := 1/2, source := "pattern_based" } := by
  have hsp := strip_nil_all_space h
  have hsp2 : ∀ c ∈ strLower text, pyIsSpace c = true := by
    intro c hc
    obtain ⟨d, hd, rfl⟩ := List.mem_map.mp hc
    exact toLower_space (hsp d hd)
  have hall : ∀ w ∈ positive_words ++ negative_words,
      w.toList.head?.map pyIsSpace = some false := by decide
  have hzero : ∀ w ∈ positive_words ++ negative_words,
      containsSub (strLower text) w.toList = false := by
    intro w hw
    have hh := hall w hw
    cases hwl : w.toList with
    | nil => rw [hwl] at hh; cases hh
    | cons c0 cs =>
      rw [hwl] at hh
      simp only [List.head?, Option.map_some] at hh
      exact contains_false_of_space _ hsp2 c0 cs (Option.some.inj hh)
  have hp : positive_words.countP
      (fun w => containsSub (strLower text) w.toList) = 0 := by
    rw [List.countP_eq_zero]
    intro w hw hcon
    rw [hzero w (List.mem_append.mpr (Or.inl hw))] at hcon
    exact Bool.false_ne_true hcon
  have hn : negative_words.countP
      (fun w => containsSub (strLower text) w.toList) = 0 := by
    rw [List.countP_eq_zero]
    intro w hw hcon
    rw [hzero w (List.mem_append.mpr (Or.inr hw))] at hcon
    exact Bool.false_ne_true hcon
  simp only [analyze_sentiment_patterns, hp, hn]
  norm_num

/-- C8.  Amended claim: an empty or whitespace-only text yields
`{NEUTRAL, 0.5, "empty_text"}` — without consulting the backend oracles —
only when the external sentiment backend is configured; when only the
lexicon fallback is available, `analyze_sentiment_with_ai` runs the
lexicon counter on the empty text and returns the tie result
`{NEUTRAL, 0.5, "pattern_based"}`.  The original claim asserted the
`"empty_text"` short-circuit for both configurations (see the
counterexample). -/
theorem emptyTextSentiment (cfg : Config) (text : String)
    (h : stripChars text.toList = []) :
    analyze_sentiment_with_ai cfg text =
      (if cfg.sentimentModelsAvailable then
        { label := .NEUTRAL, confidence := 1/2, source := "empty_text" }
       else { label := .NEUTRAL, confidence := 1/2, source := "pattern_based" }) ∧
    (∀ v b : String → ℚ, ∀ g : String → List String,
      analyze_sentiment_with_ai
        (Config.mk cfg.sentimentModelsAvailable cfg.spacyAvailable v b g) text =
        analyze_sentiment_with_ai cfg text) := by
  have key : ∀ cfg' : Config, analyze_sentiment_with_ai cfg' text =
      (if cfg'.sentimentModelsAvailable then
        { label := .NEUTRAL, confidence := 1/2, source := "empty_text" }
       else { label := .NEUTRAL, confidence := 1/2, source := "pattern_based" }) := by
    intro cfg'
    unfold analyze_sentiment_with_ai
    by_cases hm : cfg'.sentimentModelsAvailable = true
    · rw [if_pos hm, if_pos h, if_pos hm]
    · rw [if_neg hm, if_neg hm]
      exact lexicon_whitespace text h
  refine ⟨key cfg, ?_⟩
  intro v b g
  rw [key cfg, key (Config.mk cfg.sentimentModelsAvailable cfg.spacyAvailable v b g)]

/-- C8 witness: the characterisation applied to a whitespace-only text
under the lexicon-only configuration. -/
theorem emptyTextSentiment_witness :
    stripChars (" " : String).toList = [] ∧
    analyze_sentiment_with_ai cfgL " " =
      (if cfgL.sentimentModelsAvailable then
        { label := .NEUTRAL, confidence := 1/2, source := "empty_text" }
       else { label := .NEUTRAL, confidence := 1/2, source := "pattern_based" }) :=
  ⟨by decide, (emptyTextSentiment cfgL " " (by decide)).1⟩

/-- C8 counterexample: with only the lexicon fallback configured, the
empty text is analysed by the lexicon provider and reports source
`"pattern_based"`, not the claimed `"empty_text"`. -/
theorem lexiconEmptyTextSource :
    (analyze_sentiment_with_ai cfgL "").source = "pattern_based" ∧
    (analyze_sentiment_with_ai cfgL "").source ≠ "empty_text" := by
  have h : analyze_sentiment_with_ai cfgL "" =
      { label := .NEUTRAL, confidence := 1/2, source := "pattern_based" } := by
    rw [ai_sentiment_cfgL]
    exact lexicon_whitespace "" rfl
  rw [h]
  exact ⟨rfl, by decide⟩

/-- C9: the lexicon provider translated from the source coincides, for
every non-empty text, with the provider stated in the spec's words
(case-insensitive substring counting and the
`min(0.6 + 0.1*(posCount-negCount), 0.9)` formulas with NEUTRAL 0.5 on a
tie). -/
theorem lexiconMatchesSpec (text : String) (_h : text ≠ "") :
    analyze_sentiment_patterns text = lexiconSentimentSpec text := by
  have hw1 : ∀ w ∈ positive_words, strLower w = w.toList := by decide
  have hw2 : ∀ w ∈ negative_words, strLower w = w.toList := by decide
  have hp : positive_words.countP
        (fun w => containsSub (strLower text) (strLower w)) =
      positive_words.countP (fun w => containsSub (strLower text) w.toList) :=
    List.countP_congr (fun w hw => by rw [hw1 w hw])
  have hn : negative_words.countP
        (fun w => containsSub (strLower text) (strLower w)) =
      negative_words.countP (fun w => containsSub (strLower text) w.toList) :=
    List.countP_congr (fun w hw => by rw [hw2 w hw])
  simp only [analyze_sentiment_patterns, lexiconSentimentSpec, hp, hn]
  split_ifs with h1 h2
  · simp only [SentimentResult.mk.injEq, true_and, and_true]
    ring_nf
  · simp only [SentimentResult.mk.injEq, true_and, and_true]
    ring_nf
  · rfl

/-- C9 witness: the coincidence evaluated at a concrete non-empty text. -/
theorem lexiconMatchesSpec_witness :
    ("what a great day" : String) ≠ "" ∧
    analyze_sentiment_patterns "what a great day" =
      lexiconSentimentSpec "what a great day" :=
  ⟨by decide, lexiconMatchesSpec "what a great day" (by decide)⟩

/-! ### Structure of the pattern matcher -/

theorem firstMatch_eq_any (rules : List (List Char → Bool)) (t : List Char) :
    firstMatch rules t = rules.any (fun r => r t) := by
  induction rules with
  | nil => rfl
  | cons r rs ih =>
    unfold firstMatch
    by_cases h : r t <;> simp [h, ih]

theorem mem_matchedTags (t : List Char)
    (trs : List (String × List (List Char → Bool))) (tag : String) :
    tag ∈ matchedTags t trs ↔
      ∃ rules, (tag, rules) ∈ trs ∧ firstMatch rules t = true := by
  unfold matchedTags
  rw [List.mem_filterMap]
  constructor
  · rintro ⟨⟨tg, rules⟩, hm, hf⟩
    split_ifs at hf with h
    obtain rfl := Option.some.inj hf
    exact ⟨rules, hm, h⟩
  · rintro ⟨rules, hm, hf⟩
    exact ⟨(tag, rules), hm, by simp [hf]⟩

theorem matchedTags_sublist (t : List Char)
    (trs : List (String × List (List Char → Bool))) :
    List.Sublist (matchedTags t trs) (trs.map Prod.fst) := by
  unfold matchedTags
  induction trs with
  | nil => simp
  | cons tr trs ih =>
    rw [List.filterMap_cons, List.map_cons]
    by_cases h : firstMatch tr.2 t
    · rw [if_pos h]
      exact (ih.cons₂ tr.1)
    · rw [if_neg h]
      exact ih.cons tr.1

theorem matchedTags_nodup (t : List Char)
    (trs : List (String × List (List Char → Bool)))
    (h : (trs.map Prod.fst).Nodup) : (matchedTags t trs).Nodup :=
  (matchedTags_sublist t trs).nodup h

theorem assoc_unique {α β : Type} (l : List (α × β))
    (h : (l.map Prod.fst).Nodup) {a : α} {b b' : β}
    (h1 : (a, b) ∈ l) (h2 : (a, b') ∈ l) : b = b' := by
  induction l with
  | nil => cases h1
  | cons hd tl ih =>
    rw [List.map_cons, List.nodup_cons] at h
    rcases List.mem_cons.mp h1 with he1 | ht1
    · rcases List.mem_cons.mp h2 with he2 | ht2
      · rw [← he1] at he2
        exact (Prod.mk.injEq _ _ _ _).mp he2.symm |>.2
      · exfalso
        apply h.1
        rw [← he1]
        exact List.mem_map.mpr ⟨(a, b'), ht2, rfl⟩
    · rcases List.mem_cons.mp h2 with he2 | ht2
      · exfalso
        apply h.1
        rw [← he2]
        exact List.mem_map.mpr ⟨(a, b), ht1, rfl⟩
      · exact ih h.2 ht1 ht2

theorem mem_acp (text : String) (cat : String) (tags : List String) :
    (cat, tags) ∈ analyze_content_patterns text ↔
      ∃ trs, (cat, trs) ∈ SYSTEM_TAG_PATTERNS ∧
        tags = matchedTags (strLower text) trs ∧ tags ≠ [] := by
  unfold analyze_content_patterns
  rw [List.mem_filter, List.mem_map]
  constructor
  · rintro ⟨⟨⟨c, trs⟩, hm, heq⟩, hne⟩
    obtain ⟨hc, ht⟩ := Prod.mk.injEq _ _ _ _ |>.mp heq
    subst hc
    refine ⟨trs, hm, ht.symm, ?_⟩
    simpa using hne
  · rintro ⟨trs, hm, rfl, hne⟩
    exact ⟨⟨(cat, trs), hm, rfl⟩, by simpa using hne⟩

theorem tax_cat_nodup : (SYSTEM_TAG_PATTERNS.map Prod.fst).Nodup := by decide

theorem tax_tags_nodup :
    ∀ e ∈ SYSTEM_TAG_PATTERNS, (e.2.map Prod.fst).Nodup := by decide

/-- C7: the pattern matcher lower-cases the text once; for each taxonomy
category and tag, the tag's rules are scanned in order with an early
stop (`firstMatch rules t = rules.any`), the tag is reported exactly
when one of its rules matches, each reported tag list is duplicate-free
and non-empty, and a category is absent from the result exactly when
none of its tags matched. -/
theorem patternMatcherStructure (text : String) :
    (∀ rules t, firstMatch rules t = rules.any (fun r => r t)) ∧
    (∀ cat tags, (cat, tags) ∈ analyze_content_patterns text →
      tags ≠ [] ∧ tags.Nodup) ∧
    (∀ cat trs tag rules, (cat, trs) ∈ SYSTEM_TAG_PATTERNS → (tag, rules) ∈ trs →
      ((∃ tags, (cat, tags) ∈ analyze_content_patterns text ∧ tag ∈ tags) ↔
        firstMatch rules (strLower text) = true)) ∧
    (∀ cat trs, (cat, trs) ∈ SYSTEM_TAG_PATTERNS →
      ((∀ tags, (cat, tags) ∉ analyze_content_patterns text) ↔
        ∀ tag rules, (tag, rules) ∈ trs → firstMatch rules (strLower text) = false)) := by
  have p3 : ∀ cat trs tag rules, (cat, trs) ∈ SYSTEM_TAG_PATTERNS →
      (tag, rules) ∈ trs →
      ((∃ tags, (cat, tags) ∈ analyze_content_patterns text ∧ tag ∈ tags) ↔
        firstMatch rules (strLower text) = true) := by
    intro cat trs tag rules hc ht
    constructor
    · rintro ⟨tags, hmem, htag⟩
      rw [mem_acp] at hmem
      obtain ⟨trs', hc', heq, _⟩ := hmem
      have he : trs' = trs := assoc_unique SYSTEM_TAG_PATTERNS tax_cat_nodup hc' hc
      rw [he] at heq
      rw [heq] at htag
      obtain ⟨rules', hr', hf'⟩ := (mem_matchedTags _ _ _).mp htag
      have he2 : rules' = rules :=
        assoc_unique trs (tax_tags_nodup (cat, trs) hc) hr' ht
      rw [he2] at hf'
      exact hf'
    · intro hf
      have htag : tag ∈ matchedTags (strLower text) trs :=
        (mem_matchedTags _ _ _).mpr ⟨rules, ht, hf⟩
      refine ⟨matchedTags (strLower text) trs, ?_, htag⟩
      rw [mem_acp]
      exact ⟨trs, hc, rfl, List.ne_nil_of_mem htag⟩
  refine ⟨firstMatch_eq_any, ?_, p3, ?_⟩
  · intro cat tags hm
    rw [mem_acp] at hm
    obtain ⟨trs, htrs, rfl, hne⟩ := hm
    exact ⟨hne, matchedTags_nodup _ _ (tax_tags_nodup (cat, trs) htrs)⟩
  · intro cat trs hc
    constructor
    · intro habs tag rules ht
      cases hb : firstMatch rules (strLower text) with
      | false => rfl
      | true =>
        obtain ⟨tags, hmem, _⟩ := (p3 cat trs tag rules hc ht).mpr hb
        exact absurd hmem (habs tags)
    · intro hall tags hmem
      rw [mem_acp] at hmem
      obtain ⟨trs', hc', heq, hne⟩ := hmem
      have he : trs' = trs := assoc_unique SYSTEM_TAG_PATTERNS tax_cat_nodup hc' hc
      rw [he] at heq
      rw [heq] at hne
      obtain ⟨tag, htag⟩ := List.exists_mem_of_ne_nil _ hne
      obtain ⟨rules, hr, hf⟩ := (mem_matchedTags _ _ _).mp htag
      rw [hall tag rules hr] at hf
      exact Bool.false_ne_true hf

/-- C7 witness: the characterisation applied to `"you idiot"` for the
Harassment tag of the Violation category (its second rule matches). -/
theorem patternMatcherStructure_witness :
    ("Violation", violationTags) ∈ SYSTEM_TAG_PATTERNS ∧
    ("Harassment", harassmentRules) ∈ violationTags ∧
    firstMatch harassmentRules (strLower "you idiot") = true ∧
    (∃ tags, ("Violation", tags) ∈ analyze_content_patterns "you idiot" ∧
      "Harassment" ∈ tags) := by
  have hm1 : ("Violation", violationTags) ∈ SYSTEM_TAG_PATTERNS :=
    List.mem_cons_of_mem _ (List.mem_cons_self _ _)
  have hm2 : ("Harassment", harassmentRules) ∈ violationTags :=
    List.mem_cons_self _ _
  have hf : firstMatch harassmentRules (strLower "you idiot") = true := by decide
  exact ⟨hm1, hm2, hf,
    ((patternMatcherStructure "you idiot").2.2.1 "Violation" violationTags
      "Harassment" harassmentRules hm1 hm2).mpr hf⟩

end Yapplr
